import Mathlib

/-!
Shallow embedding of the banking/ATM ledger engine
(`src/banking_atm_system.py`).

Monetary values (Python floats) are modelled as rationals; calendar dates
(Python ISO date strings compared for equality) as a `Date` record;
timestamps as opaque strings.  The ledger (the Python dict of accounts) is
a function from account-id strings to `Option Account`; the interactive
`input()` parameters of each operation become explicit arguments, the
current date and timestamp become explicit `Date`/`String` arguments.
Each operation returns its outcome (the printed message, as a `Res` value)
together with the in-memory ledger after the call; `authenticate`
additionally threads the persisted (on-disk) ledger and records the
memory/disk pair after each PIN submission.
-/

namespace Bank

/-- A calendar date (Python `datetime.date`, serialized `YYYY-MM-DD`). -/
structure Date where
  year : Int
  month : Int
  day : Int
deriving DecidableEq, Repr

/-- One transaction record (`{time, type, amount, balance_after, note}`). -/
structure Txn where
  time : String
  ttype : String
  amount : ℚ
  balance_after : ℚ
  note : String
deriving DecidableEq, Repr

/-- One account record, fields as in the persisted JSON layout. -/
structure Account where
  name : String
  pin : String
  balance : ℚ
  ttype : String
  transactions : List Txn
  failed_attempts : Nat
  locked : Bool
  daily_limit : ℚ
  withdrawn_today : ℚ
  last_withdraw_date : Date
  interest_rate : ℚ
  last_interest_date : Date
deriving DecidableEq, Repr

/-- The ledger: mapping from account id to account. -/
def Ledger : Type := String → Option Account

/-- Point update of a ledger (`accounts[acc_no] = ...`). -/
def update (L : Ledger) (id : String) (a : Account) : Ledger :=
  fun k => if k = id then some a else L k

/-- Removal of an account (`accounts.pop(acc_no)`). -/
def erase (L : Ledger) (id : String) : Ledger :=
  fun k => if k = id then none else L k

/-- Outcomes of the ledger-engine and admin operations (the printed
message of each return path of the Python functions). -/
inductive Res where
  | ok
  | notFound
  | sameAccount
  | invalidAmount
  | insufficientFunds
  | dailyLimitExceeded
  | notSavings
  | noRate
  | upToDate
  | zeroInterest
  | duplicateId
  | invalidPin
  | invalidType
deriving DecidableEq, Repr

/-- `log_transaction`, list level: append the new record, then keep only
the last 50 entries (`transactions[-50:]`) when the length exceeds 50. -/
def pushTxn (l : List Txn) (t : Txn) : List Txn :=
  let l2 := l ++ [t]
  if l2.length > 50 then l2.drop (l2.length - 50) else l2

/-- `log_transaction(account, t_type, amount, balance_after, note)`. -/
def log_transaction (a : Account) (ty : String) (amt bal : ℚ)
    (now note : String) : Account :=
  let t : Txn :=
    { time := now, ttype := ty, amount := amt, balance_after := bal, note := note }
  { a with transactions := pushTxn a.transactions t }

/-- `reset_daily_withdraw_if_new_day`: zero `withdrawn_today` and stamp
`last_withdraw_date` when the stored date differs from today. -/
def reset_daily_withdraw_if_new_day (a : Account) (today : Date) : Account :=
  if a.last_withdraw_date ≠ today then
    { a with withdrawn_today := 0, last_withdraw_date := today }
  else a

/-- `deposit_amount`.  The amount is an already-parsed argument (the
caller guarantees the id exists; on a missing id Python would raise
`KeyError`, modelled as `notFound` with the ledger unchanged). -/
def deposit_amount (L : Ledger) (id : String) (amt : ℚ) (now : String) :
    Res × Ledger :=
  if amt ≤ 0 then (Res.invalidAmount, L)
  else
    match L id with
    | none => (Res.notFound, L)
    | some a =>
      let a2 := { a with balance := a.balance + amt }
      let a3 := log_transaction a2 "deposit" amt a2.balance now "Cash deposit"
      (Res.ok, update L id a3)

/-- `withdraw_amount`.  Note that the daily reset is applied (and, in the
Python code, already visible in the shared in-memory dict) before the
balance and daily-limit checks. -/
def withdraw_amount (L : Ledger) (id : String) (amt : ℚ) (today : Date)
    (now : String) : Res × Ledger :=
  if amt ≤ 0 then (Res.invalidAmount, L)
  else
    match L id with
    | none => (Res.notFound, L)
    | some a =>
      let a1 := reset_daily_withdraw_if_new_day a today
      if a1.balance < amt then (Res.insufficientFunds, update L id a1)
      else if a1.daily_limit < a1.withdrawn_today + amt then
        (Res.dailyLimitExceeded, update L id a1)
      else
        let a2 := { a1 with balance := a1.balance - amt,
                            withdrawn_today := a1.withdrawn_today + amt,
                            last_withdraw_date := today }
        let a3 := log_transaction a2 "withdraw" amt a2.balance now "Cash withdrawal"
        (Res.ok, update L id a3)

/-- `transfer_funds(accounts, acc_no)` with the prompted target id and
amount as arguments.  The checks run in source order: target existence,
same account, amount positivity, then the source-side daily reset,
balance and limit checks; on success the source is debited and logged,
the target credited and logged, under one save. -/
def transfer_funds (L : Ledger) (src tgt : String) (amt : ℚ) (today : Date)
    (now : String) : Res × Ledger :=
  if (L tgt).isNone then (Res.notFound, L)
  else if tgt = src then (Res.sameAccount, L)
  else if amt ≤ 0 then (Res.invalidAmount, L)
  else
    match L src with
    | none => (Res.notFound, L)
    | some s =>
      let s1 := reset_daily_withdraw_if_new_day s today
      if s1.balance < amt then (Res.insufficientFunds, update L src s1)
      else if s1.daily_limit < s1.withdrawn_today + amt then
        (Res.dailyLimitExceeded, update L src s1)
      else
        let s2 := { s1 with balance := s1.balance - amt,
                            withdrawn_today := s1.withdrawn_today + amt,
                            last_withdraw_date := today }
        let s3 := log_transaction s2 "transfer_out" amt s2.balance now
          ("Transfer to " ++ tgt)
        match L tgt with
        | none => (Res.notFound, L)
        | some t =>
          let t2 := { t with balance := t.balance + amt }
          let t3 := log_transaction t2 "transfer_in" amt t2.balance now
            ("Transfer from " ++ src)
          (Res.ok, update (update L src s3) tgt t3)

/-- Whole-calendar-month count used by interest accrual:
`(today.year - last.year) * 12 + (today.month - last.month)`. -/
def monthsBetween (last today : Date) : Int :=
  (today.year - last.year) * 12 + (today.month - last.month)

/-- The simple-interest amount `balance * (rate / 12) * months` accrued
for the whole months between `last_interest_date` and today. -/
def interestAmt (a : Account) (today : Date) : ℚ :=
  a.balance * (a.interest_rate / 12) * ((monthsBetween a.last_interest_date today : Int) : ℚ)

/-- `apply_interest_if_savings`. -/
def apply_interest_if_savings (L : Ledger) (id : String) (today : Date)
    (now : String) : Res × Ledger :=
  match L id with
  | none => (Res.notFound, L)
  | some a =>
    if a.ttype ≠ "savings" then (Res.notSavings, L)
    else if a.interest_rate ≤ 0 then (Res.noRate, L)
    else
      let months := monthsBetween a.last_interest_date today
      if months ≤ 0 then (Res.upToDate, L)
      else
        let interest := interestAmt a today
        if interest ≤ 0 then (Res.zeroInterest, L)
        else
          let a2 := { a with balance := a.balance + interest,
                             last_interest_date := today }
          let a3 := log_transaction a2 "interest" interest a2.balance now
            ("Interest for " ++ toString months ++ " month(s)")
          (Res.ok, update L id a3)

/-- `create_account` with the prompted fields as arguments. -/
def create_account (L : Ledger) (id nm pin : String) (ob : ℚ) (ty : String)
    (today : Date) (now : String) : Res × Ledger :=
  if (L id).isSome then (Res.duplicateId, L)
  else if ¬(pin.length = 4 ∧ pin.data.all Char.isDigit) then (Res.invalidPin, L)
  else if ¬(ty = "savings" ∨ ty = "current") then (Res.invalidType, L)
  else
    let rate : ℚ := if ty = "savings" then 4/100 else 0
    let a : Account :=
      { name := nm, pin := pin, balance := ob, ttype := ty, transactions := [],
        failed_attempts := 0, locked := false, daily_limit := 20000,
        withdrawn_today := 0, last_withdraw_date := today,
        interest_rate := rate, last_interest_date := today }
    let a2 := log_transaction a "deposit" ob ob now "Opening deposit"
    (Res.ok, update L id a2)

/-- `delete_account` with the prompted id and confirmation as arguments. -/
def delete_account (L : Ledger) (id : String) (confirm : Bool) : Res × Ledger :=
  match L id with
  | none => (Res.notFound, L)
  | some _ => if confirm then (Res.ok, erase L id) else (Res.ok, L)

/-- `unlock_account`. -/
def unlock_account (L : Ledger) (id : String) : Res × Ledger :=
  match L id with
  | none => (Res.notFound, L)
  | some a => (Res.ok, update L id { a with locked := false, failed_attempts := 0 })

/-- `create_default_accounts` (first-run seed). -/
def acct1001 (d : Date) : Account :=
  { name := "Rahul Sharma", pin := "1234", balance := 15000, ttype := "savings",
    transactions := [], failed_attempts := 0, locked := false,
    daily_limit := 20000, withdrawn_today := 0, last_withdraw_date := d,
    interest_rate := 4/100, last_interest_date := d }

/-- Second seed account. -/
def acct1002 (d : Date) : Account :=
  { name := "Priya Verma", pin := "4321", balance := 8000, ttype := "current",
    transactions := [], failed_attempts := 0, locked := false,
    daily_limit := 30000, withdrawn_today := 0, last_withdraw_date := d,
    interest_rate := 0, last_interest_date := d }

/-- The default two-account seed ledger. -/
def create_default_accounts (d : Date) : Ledger :=
  fun k => if k = "1001" then some (acct1001 d)
    else if k = "1002" then some (acct1002 d) else none

/-- Outcome of one `authenticate` call. -/
inductive AuthRes where
  | authed (id : String)
  | lockedOut
  | failedOut
  | notFound
  | alreadyLocked
deriving DecidableEq, Repr

/-- Result of an `authenticate` call: the outcome, the in-memory ledger,
the persisted ledger, and — for each PIN submission that was processed —
the (memory, disk) pair right after that submission. -/
structure AuthOut where
  res : AuthRes
  mem : Ledger
  disk : Ledger
  trace : List (Ledger × Ledger)

/-- The `for attempt in range(3)` loop of `authenticate`: on a matching
PIN reset `failed_attempts` and save; on a mismatch increment it and,
when it reaches 3, lock the account and save; when the loop ends without
either, save once.  (An exhausted PIN stream is treated like the loop
ending: in the real program `input()` always yields a submission.) -/
def authLoop (id : String) : Account → Ledger → Ledger → List String → Nat → AuthOut
  | _, L, _, _, 0 => ⟨AuthRes.failedOut, L, L, []⟩
  | _, L, _, [], _ + 1 => ⟨AuthRes.failedOut, L, L, []⟩
  | a, L, D, pin :: rest, fuel + 1 =>
    if pin = a.pin then
      let a2 := { a with failed_attempts := 0 }
      let L2 := update L id a2
      ⟨AuthRes.authed id, L2, L2, [(L2, L2)]⟩
    else
      let a2 := { a with failed_attempts := a.failed_attempts + 1 }
      let L2 := update L id a2
      if 3 ≤ a2.failed_attempts then
        let a3 := { a2 with locked := true }
        let L3 := update L id a3
        ⟨AuthRes.lockedOut, L3, L3, [(L3, L3)]⟩
      else
        let o := authLoop id a2 L2 D rest fuel
        ⟨o.res, o.mem, o.disk, (L2, D) :: o.trace⟩

/-- `authenticate(accounts)` with the prompted account id and the stream
of PIN submissions as arguments; `D` is the persisted ledger before the
call. -/
def authenticate (L D : Ledger) (id : String) (pins : List String) : AuthOut :=
  match L id with
  | none => ⟨AuthRes.notFound, L, D, []⟩
  | some a =>
    if a.locked then ⟨AuthRes.alreadyLocked, L, D, []⟩
    else authLoop id a L D pins 3

/-! ### Basic ledger lemmas -/

theorem update_apply_self (L : Ledger) (id : String) (a : Account) :
    update L id a id = some a := by
  simp [update]

theorem update_apply_ne (L : Ledger) (id k : String) (a : Account) (h : k ≠ id) :
    update L id a k = L k := by
  simp [update, h]

theorem reset_balance (a : Account) (d : Date) :
    (reset_daily_withdraw_if_new_day a d).balance = a.balance := by
  unfold reset_daily_withdraw_if_new_day
  split <;> rfl

theorem reset_transactions (a : Account) (d : Date) :
    (reset_daily_withdraw_if_new_day a d).transactions = a.transactions := by
  unfold reset_daily_withdraw_if_new_day
  split <;> rfl

theorem reset_daily_limit (a : Account) (d : Date) :
    (reset_daily_withdraw_if_new_day a d).daily_limit = a.daily_limit := by
  unfold reset_daily_withdraw_if_new_day
  split <;> rfl

/-! ### Branch characterizations of `withdraw_amount` -/

theorem withdraw_eq_invalid (L : Ledger) (id : String) (amt : ℚ) (d : Date)
    (n : String) (hle : amt ≤ 0) :
    withdraw_amount L id amt d n = (Res.invalidAmount, L) := by
  unfold withdraw_amount
  rw [if_pos hle]

theorem withdraw_eq_insufficient (L : Ledger) (id : String) (amt : ℚ) (d : Date)
    (n : String) (a : Account) (hpos : ¬ amt ≤ 0) (h : L id = some a)
    (hins : (reset_daily_withdraw_if_new_day a d).balance < amt) :
    withdraw_amount L id amt d n =
      (Res.insufficientFunds, update L id (reset_daily_withdraw_if_new_day a d)) := by
  unfold withdraw_amount
  rw [if_neg hpos, h]
  simp only [if_pos hins]

theorem withdraw_eq_limit (L : Ledger) (id : String) (amt : ℚ) (d : Date)
    (n : String) (a : Account) (hpos : ¬ amt ≤ 0) (h : L id = some a)
    (hins : ¬ (reset_daily_withdraw_if_new_day a d).balance < amt)
    (hlim : (reset_daily_withdraw_if_new_day a d).daily_limit <
      (reset_daily_withdraw_if_new_day a d).withdrawn_today + amt) :
    withdraw_amount L id amt d n =
      (Res.dailyLimitExceeded, update L id (reset_daily_withdraw_if_new_day a d)) := by
  unfold withdraw_amount
  rw [if_neg hpos, h]
  simp only [if_neg hins, if_pos hlim]

theorem withdraw_eq_ok (L : Ledger) (id : String) (amt : ℚ) (d : Date)
    (n : String) (a : Account) (hpos : ¬ amt ≤ 0) (h : L id = some a)
    (hins : ¬ (reset_daily_withdraw_if_new_day a d).balance < amt)
    (hlim : ¬ (reset_daily_withdraw_if_new_day a d).daily_limit <
      (reset_daily_withdraw_if_new_day a d).withdrawn_today + amt) :
    withdraw_amount L id amt d n =
      (Res.ok, update L id (log_transaction
        { reset_daily_withdraw_if_new_day a d with
            balance := (reset_daily_withdraw_if_new_day a d).balance - amt,
            withdrawn_today := (reset_daily_withdraw_if_new_day a d).withdrawn_today + amt,
            last_withdraw_date := d }
        "withdraw" amt ((reset_daily_withdraw_if_new_day a d).balance - amt)
        n "Cash withdrawal")) := by
  unfold withdraw_amount
  rw [if_neg hpos, h]
  simp only [if_neg hins, if_neg hlim]

theorem withdraw_eq_missing (L : Ledger) (id : String) (amt : ℚ) (d : Date)
    (n : String) (hpos : ¬ amt ≤ 0) (h : L id = none) :
    withdraw_amount L id amt d n = (Res.notFound, L) := by
  unfold withdraw_amount
  rw [if_neg hpos, h]

theorem log_transaction_balance (a : Account) (ty : String) (amt bal : ℚ)
    (n note : String) : (log_transaction a ty amt bal n note).balance = a.balance := rfl

theorem log_transaction_withdrawn (a : Account) (ty : String) (amt bal : ℚ)
    (n note : String) :
    (log_transaction a ty amt bal n note).withdrawn_today = a.withdrawn_today := rfl

/-- C4: Withdraw(id, amount) — after first applying the daily-window reset
(zeroing `withdrawn_today` and stamping `last_withdraw_date` when the
stored date differs from today) — succeeds if and only if `amount > 0`,
`amount ≤ balance`, and `withdrawn_today + amount ≤ daily_limit` (equality
at the limit accepted); on success the balance decreases by `amount` and
`withdrawn_today` increases by `amount`; otherwise the respective error
`InvalidAmount`, `InsufficientFunds`, or `DailyLimitExceeded` is
reported. -/
theorem C4_withdraw_spec (L : Ledger) (id : String) (amt : ℚ) (today : Date)
    (now : String) (a : Account) (h : L id = some a) :
    ((withdraw_amount L id amt today now).1 = Res.ok ↔
      0 < amt ∧ amt ≤ (reset_daily_withdraw_if_new_day a today).balance ∧
        (reset_daily_withdraw_if_new_day a today).withdrawn_today + amt ≤
          (reset_daily_withdraw_if_new_day a today).daily_limit)
    ∧ ((withdraw_amount L id amt today now).1 = Res.ok →
        ∃ a2, (withdraw_amount L id amt today now).2 id = some a2 ∧
          a2.balance = a.balance - amt ∧
          a2.withdrawn_today =
            (reset_daily_withdraw_if_new_day a today).withdrawn_today + amt)
    ∧ (amt ≤ 0 → (withdraw_amount L id amt today now).1 = Res.invalidAmount)
    ∧ (0 < amt → (reset_daily_withdraw_if_new_day a today).balance < amt →
        (withdraw_amount L id amt today now).1 = Res.insufficientFunds)
    ∧ (0 < amt → amt ≤ (reset_daily_withdraw_if_new_day a today).balance →
        (reset_daily_withdraw_if_new_day a today).daily_limit <
          (reset_daily_withdraw_if_new_day a today).withdrawn_today + amt →
        (withdraw_amount L id amt today now).1 = Res.dailyLimitExceeded) := by
  by_cases h1 : amt ≤ 0
  · rw [withdraw_eq_invalid L id amt today now h1]
    refine ⟨?_, ?_, ?_, ?_, ?_⟩
    · constructor
      · intro hc; exact Res.noConfusion hc
      · rintro ⟨hpos, -, -⟩; exact absurd h1 (not_le.mpr hpos)
    · intro hc; exact Res.noConfusion hc
    · intro _; rfl
    · intro hpos _; exact absurd h1 (not_le.mpr hpos)
    · intro hpos _ _; exact absurd h1 (not_le.mpr hpos)
  · by_cases h2 : (reset_daily_withdraw_if_new_day a today).balance < amt
    · rw [withdraw_eq_insufficient L id amt today now a h1 h h2]
      refine ⟨?_, ?_, ?_, ?_, ?_⟩
      · constructor
        · intro hc; exact Res.noConfusion hc
        · rintro ⟨-, hle, -⟩; exact absurd h2 (not_lt.mpr hle)
      · intro hc; exact Res.noConfusion hc
      · intro hle; exact absurd hle h1
      · intro _ _; rfl
      · intro _ hle _; exact absurd h2 (not_lt.mpr hle)
    · by_cases h3 : (reset_daily_withdraw_if_new_day a today).daily_limit <
        (reset_daily_withdraw_if_new_day a today).withdrawn_today + amt
      · rw [withdraw_eq_limit L id amt today now a h1 h h2 h3]
        refine ⟨?_, ?_, ?_, ?_, ?_⟩
        · constructor
          · intro hc; exact Res.noConfusion hc
          · rintro ⟨-, -, hle⟩; exact absurd h3 (not_lt.mpr hle)
        · intro hc; exact Res.noConfusion hc
        · intro hle; exact absurd hle h1
        · intro _ hlt; exact absurd hlt h2
        · intro _ _ _; rfl
      · rw [withdraw_eq_ok L id amt today now a h1 h h2 h3]
        refine ⟨?_, ?_, ?_, ?_, ?_⟩
        · exact ⟨fun _ => ⟨not_le.mp h1, not_lt.mp h2, not_lt.mp h3⟩, fun _ => rfl⟩
        · intro _
          refine ⟨_, update_apply_self _ _ _, ?_, ?_⟩
          · rw [log_transaction_balance]
            show (reset_daily_withdraw_if_new_day a today).balance - amt = a.balance - amt
            rw [reset_balance]
          · rw [log_transaction_withdrawn]
        · intro hle; exact absurd hle h1
        · intro _ hlt; exact absurd hlt h2
        · intro _ _ hlt; exact absurd hlt h3

/-- Witness for C4 at a concrete input: withdrawing 5000 from the seed
account 1001 (balance 15000, limit 20000) on the seed date succeeds. -/
theorem C4_withdraw_spec_witness :
    (withdraw_amount (create_default_accounts ⟨2024, 1, 15⟩) "1001" 5000
      ⟨2024, 1, 15⟩ "2024-01-15 10:00:00").1 = Res.ok := by
  have h := C4_withdraw_spec (create_default_accounts ⟨2024, 1, 15⟩) "1001" 5000
    ⟨2024, 1, 15⟩ "2024-01-15 10:00:00" (acct1001 ⟨2024, 1, 15⟩) rfl
  refine h.1.mpr ⟨by norm_num, ?_, ?_⟩ <;>
    simp [reset_daily_withdraw_if_new_day, acct1001] <;> norm_num

/-- `pushTxn` in closed form: the appended list with everything but the
last 50 entries dropped (a no-op drop when the result still fits). -/
theorem pushTxn_eq (l : List Txn) (t : Txn) :
    pushTxn l t = (l ++ [t]).drop (l.length + 1 - 50) := by
  unfold pushTxn
  simp only [List.length_append, List.length_singleton]
  split
  · rfl
  · have h0 : l.length + 1 - 50 = 0 := by omega
    rw [h0, List.drop_zero]

/-- `reset_daily_withdraw_if_new_day` only rewrites `withdrawn_today` and
`last_withdraw_date`. -/
theorem reset_eq_update (a : Account) (d : Date) :
    ∃ w ld, reset_daily_withdraw_if_new_day a d =
      { a with withdrawn_today := w, last_withdraw_date := ld } := by
  unfold reset_daily_withdraw_if_new_day
  split
  · exact ⟨0, d, rfl⟩
  · exact ⟨a.withdrawn_today, a.last_withdraw_date, rfl⟩

/-! ### Branch characterizations of `transfer_funds` -/

theorem transfer_eq_noTarget (L : Ledger) (src tgt : String) (amt : ℚ)
    (d : Date) (n : String) (h : L tgt = none) :
    transfer_funds L src tgt amt d n = (Res.notFound, L) := by
  unfold transfer_funds
  rw [h]
  rfl

theorem transfer_eq_same (L : Ledger) (src tgt : String) (amt : ℚ)
    (d : Date) (n : String) (t : Account) (ht : L tgt = some t) (hs : tgt = src) :
    transfer_funds L src tgt amt d n = (Res.sameAccount, L) := by
  unfold transfer_funds
  rw [ht]
  simp only [Option.isNone_some, Bool.false_eq_true, if_false, if_pos hs]

theorem transfer_eq_invalid (L : Ledger) (src tgt : String) (amt : ℚ)
    (d : Date) (n : String) (t : Account) (ht : L tgt = some t) (hs : tgt ≠ src)
    (hle : amt ≤ 0) :
    transfer_funds L src tgt amt d n = (Res.invalidAmount, L) := by
  unfold transfer_funds
  rw [ht]
  simp only [Option.isNone_some, Bool.false_eq_true, if_false, if_neg hs, if_pos hle]

theorem transfer_eq_insufficient (L : Ledger) (src tgt : String) (amt : ℚ)
    (d : Date) (n : String) (t s : Account) (ht : L tgt = some t) (hs : tgt ≠ src)
    (hle : ¬ amt ≤ 0) (hsrc : L src = some s)
    (hins : (reset_daily_withdraw_if_new_day s d).balance < amt) :
    transfer_funds L src tgt amt d n =
      (Res.insufficientFunds, update L src (reset_daily_withdraw_if_new_day s d)) := by
  unfold transfer_funds
  rw [ht]
  simp only [Option.isNone_some, Bool.false_eq_true, if_false, if_neg hs, if_neg hle]
  rw [hsrc]
  simp only [if_pos hins]

theorem transfer_eq_limit (L : Ledger) (src tgt : String) (amt : ℚ)
    (d : Date) (n : String) (t s : Account) (ht : L tgt = some t) (hs : tgt ≠ src)
    (hle : ¬ amt ≤ 0) (hsrc : L src = some s)
    (hins : ¬ (reset_daily_withdraw_if_new_day s d).balance < amt)
    (hlim : (reset_daily_withdraw_if_new_day s d).daily_limit <
      (reset_daily_withdraw_if_new_day s d).withdrawn_today + amt) :
    transfer_funds L src tgt amt d n =
      (Res.dailyLimitExceeded, update L src (reset_daily_withdraw_if_new_day s d)) := by
  unfold transfer_funds
  rw [ht]
  simp only [Option.isNone_some, Bool.false_eq_true, if_false, if_neg hs, if_neg hle]
  rw [hsrc]
  simp only [if_neg hins, if_pos hlim]

theorem transfer_eq_ok (L : Ledger) (src tgt : String) (amt : ℚ)
    (d : Date) (n : String) (t s : Account) (ht : L tgt = some t) (hs : tgt ≠ src)
    (hle : ¬ amt ≤ 0) (hsrc : L src = some s)
    (hins : ¬ (reset_daily_withdraw_if_new_day s d).balance < amt)
    (hlim : ¬ (reset_daily_withdraw_if_new_day s d).daily_limit <
      (reset_daily_withdraw_if_new_day s d).withdrawn_today + amt) :
    transfer_funds L src tgt amt d n =
      (Res.ok, update (update L src
        (log_transaction
          { reset_daily_withdraw_if_new_day s d with
              balance := (reset_daily_withdraw_if_new_day s d).balance - amt,
              withdrawn_today := (reset_daily_withdraw_if_new_day s d).withdrawn_today + amt,
              last_withdraw_date := d }
          "transfer_out" amt ((reset_daily_withdraw_if_new_day s d).balance - amt)
          n ("Transfer to " ++ tgt))) tgt
        (log_transaction { t with balance := t.balance + amt }
          "transfer_in" amt (t.balance + amt) n ("Transfer from " ++ src))) := by
  unfold transfer_funds
  rw [ht]
  simp only [Option.isNone_some, Bool.false_eq_true, if_false, if_neg hs, if_neg hle]
  rw [hsrc]
  simp only [if_neg hins, if_neg hlim]

/-- C1: for every ledger, distinct existing accounts A and B and amount on
which Transfer(A, B, amount) succeeds, A's balance decreases by exactly
the amount, B's increases by exactly the amount, A's history gains exactly
one new `transfer_out` entry and B's exactly one new `transfer_in` entry
(the oldest entry being truncated only when the 50-entry bound overflows);
on every failing Transfer call neither account's balance nor transaction
count changes. -/
theorem C1_transfer_atomicity (L : Ledger) (A B : String) (amt : ℚ) (d : Date)
    (n : String) (sa sb : Account) (hA : L A = some sa) (hB : L B = some sb)
    (hne : A ≠ B) :
    ((transfer_funds L A B amt d n).1 = Res.ok →
      ∃ sa2 sb2 tOut tIn,
        (transfer_funds L A B amt d n).2 A = some sa2 ∧
        (transfer_funds L A B amt d n).2 B = some sb2 ∧
        sa2.balance = sa.balance - amt ∧
        sb2.balance = sb.balance + amt ∧
        tOut.ttype = "transfer_out" ∧ tOut.amount = amt ∧
        tIn.ttype = "transfer_in" ∧ tIn.amount = amt ∧
        sa2.transactions =
          (sa.transactions ++ [tOut]).drop (sa.transactions.length + 1 - 50) ∧
        sb2.transactions =
          (sb.transactions ++ [tIn]).drop (sb.transactions.length + 1 - 50))
    ∧ ((transfer_funds L A B amt d n).1 ≠ Res.ok →
        ∃ sa2 sb2,
          (transfer_funds L A B amt d n).2 A = some sa2 ∧
          (transfer_funds L A B amt d n).2 B = some sb2 ∧
          sa2.balance = sa.balance ∧ sb2.balance = sb.balance ∧
          sa2.transactions.length = sa.transactions.length ∧
          sb2.transactions.length = sb.transactions.length) := by
  have hBA : B ≠ A := fun hh => hne hh.symm
  by_cases h1 : amt ≤ 0
  · rw [transfer_eq_invalid L A B amt d n sb hB hBA h1]
    refine ⟨fun hc => Res.noConfusion hc, fun _ => ⟨sa, sb, hA, hB, rfl, rfl, rfl, rfl⟩⟩
  · by_cases h2 : (reset_daily_withdraw_if_new_day sa d).balance < amt
    · rw [transfer_eq_insufficient L A B amt d n sb sa hB hBA h1 hA h2]
      refine ⟨fun hc => Res.noConfusion hc, fun _ => ?_⟩
      refine ⟨reset_daily_withdraw_if_new_day sa d, sb, update_apply_self _ _ _, ?_,
        reset_balance _ _, rfl, ?_, rfl⟩
      · exact (update_apply_ne _ _ _ _ hBA).trans hB
      · rw [reset_transactions]
    · by_cases h3 : (reset_daily_withdraw_if_new_day sa d).daily_limit <
        (reset_daily_withdraw_if_new_day sa d).withdrawn_today + amt
      · rw [transfer_eq_limit L A B amt d n sb sa hB hBA h1 hA h2 h3]
        refine ⟨fun hc => Res.noConfusion hc, fun _ => ?_⟩
        refine ⟨reset_daily_withdraw_if_new_day sa d, sb, update_apply_self _ _ _, ?_,
          reset_balance _ _, rfl, ?_, rfl⟩
        · exact (update_apply_ne _ _ _ _ hBA).trans hB
        · rw [reset_transactions]
      · rw [transfer_eq_ok L A B amt d n sb sa hB hBA h1 hA h2 h3]
        refine ⟨fun _ => ?_, fun hc => absurd rfl hc⟩
        refine ⟨log_transaction
            { reset_daily_withdraw_if_new_day sa d with
                balance := (reset_daily_withdraw_if_new_day sa d).balance - amt,
                withdrawn_today :=
                  (reset_daily_withdraw_if_new_day sa d).withdrawn_today + amt,
                last_withdraw_date := d }
            "transfer_out" amt ((reset_daily_withdraw_if_new_day sa d).balance - amt)
            n ("Transfer to " ++ B),
          log_transaction { sb with balance := sb.balance + amt }
            "transfer_in" amt (sb.balance + amt) n ("Transfer from " ++ A),
          ⟨n, "transfer_out", amt, (reset_daily_withdraw_if_new_day sa d).balance - amt,
            "Transfer to " ++ B⟩,
          ⟨n, "transfer_in", amt, sb.balance + amt, "Transfer from " ++ A⟩,
          ?_, ?_, ?_, ?_, rfl, rfl, rfl, rfl, ?_, ?_⟩
        · exact (update_apply_ne _ _ _ _ hne).trans (update_apply_self _ _ _)
        · exact update_apply_self _ _ _
        · rw [log_transaction_balance]
          show (reset_daily_withdraw_if_new_day sa d).balance - amt = sa.balance - amt
          rw [reset_balance]
        · rw [log_transaction_balance]
        · show pushTxn (reset_daily_withdraw_if_new_day sa d).transactions _ = _
          rw [reset_transactions, pushTxn_eq]
        · show pushTxn sb.transactions _ = _
          rw [pushTxn_eq]

/-- Witness for C1: transferring 1000 from seed account 1001 to 1002
succeeds, after which 1001 holds 14000 and 1002 holds 9000. -/
theorem C1_transfer_atomicity_witness :
    ∃ sa2 sb2,
      (transfer_funds (create_default_accounts ⟨2024, 1, 15⟩) "1001" "1002" 1000
        ⟨2024, 1, 15⟩ "ts").2 "1001" = some sa2 ∧
      (transfer_funds (create_default_accounts ⟨2024, 1, 15⟩) "1001" "1002" 1000
        ⟨2024, 1, 15⟩ "ts").2 "1002" = some sb2 ∧
      sa2.balance = 14000 ∧ sb2.balance = 9000 := by
  have h := C1_transfer_atomicity (create_default_accounts ⟨2024, 1, 15⟩)
    "1001" "1002" 1000 ⟨2024, 1, 15⟩ "ts"
    (acct1001 ⟨2024, 1, 15⟩) (acct1002 ⟨2024, 1, 15⟩) rfl rfl (by decide)
  have hok : (transfer_funds (create_default_accounts ⟨2024, 1, 15⟩) "1001" "1002"
      1000 ⟨2024, 1, 15⟩ "ts").1 = Res.ok := by
    rw [transfer_eq_ok (create_default_accounts ⟨2024, 1, 15⟩) "1001" "1002" 1000
      ⟨2024, 1, 15⟩ "ts" (acct1002 ⟨2024, 1, 15⟩) (acct1001 ⟨2024, 1, 15⟩) rfl
      (by decide) (by norm_num) rfl ?_ ?_] <;>
      simp [reset_daily_withdraw_if_new_day, acct1001] <;> norm_num
  obtain ⟨sa2, sb2, tOut, tIn, h1, h2, h3, h4, -, -, -, -, -, -⟩ := h.1 hok
  refine ⟨sa2, sb2, h1, h2, ?_, ?_⟩
  · rw [h3]; show (acct1001 ⟨2024, 1, 15⟩).balance - 1000 = 14000
    norm_num [acct1001]
  · rw [h4]; show (acct1002 ⟨2024, 1, 15⟩).balance + 1000 = 9000
    norm_num [acct1002]

/-- C10: a successful Transfer changes at most the source's balance,
`withdrawn_today`, `last_withdraw_date` and transactions and the target's
balance and transactions; the target's remaining fields and every other
account are untouched. -/
theorem C10_transfer_frame (L : Ledger) (A B : String) (amt : ℚ) (d : Date)
    (n : String) (sa sb : Account) (hA : L A = some sa) (hB : L B = some sb)
    (hne : A ≠ B) (hok : (transfer_funds L A B amt d n).1 = Res.ok) :
    (∀ k, k ≠ A → k ≠ B → (transfer_funds L A B amt d n).2 k = L k)
    ∧ (∃ sa2, (transfer_funds L A B amt d n).2 A = some sa2 ∧
        sa2.name = sa.name ∧ sa2.pin = sa.pin ∧ sa2.ttype = sa.ttype ∧
        sa2.failed_attempts = sa.failed_attempts ∧ sa2.locked = sa.locked ∧
        sa2.daily_limit = sa.daily_limit ∧
        sa2.interest_rate = sa.interest_rate ∧
        sa2.last_interest_date = sa.last_interest_date)
    ∧ (∃ sb2, (transfer_funds L A B amt d n).2 B = some sb2 ∧
        sb2.name = sb.name ∧ sb2.pin = sb.pin ∧ sb2.ttype = sb.ttype ∧
        sb2.failed_attempts = sb.failed_attempts ∧ sb2.locked = sb.locked ∧
        sb2.daily_limit = sb.daily_limit ∧
        sb2.withdrawn_today = sb.withdrawn_today ∧
        sb2.last_withdraw_date = sb.last_withdraw_date ∧
        sb2.interest_rate = sb.interest_rate ∧
        sb2.last_interest_date = sb.last_interest_date) := by
  have hBA : B ≠ A := fun hh => hne hh.symm
  by_cases h1 : amt ≤ 0
  · rw [transfer_eq_invalid L A B amt d n sb hB hBA h1] at hok
    exact Res.noConfusion hok
  · by_cases h2 : (reset_daily_withdraw_if_new_day sa d).balance < amt
    · rw [transfer_eq_insufficient L A B amt d n sb sa hB hBA h1 hA h2] at hok
      exact Res.noConfusion hok
    · by_cases h3 : (reset_daily_withdraw_if_new_day sa d).daily_limit <
        (reset_daily_withdraw_if_new_day sa d).withdrawn_today + amt
      · rw [transfer_eq_limit L A B amt d n sb sa hB hBA h1 hA h2 h3] at hok
        exact Res.noConfusion hok
      · rw [transfer_eq_ok L A B amt d n sb sa hB hBA h1 hA h2 h3]
        obtain ⟨w, ld, hr⟩ := reset_eq_update sa d
        refine ⟨?_, ?_, ?_⟩
        · intro k hkA hkB
          exact (update_apply_ne _ _ _ _ hkB).trans (update_apply_ne _ _ _ _ hkA)
        · refine ⟨_, (update_apply_ne _ _ _ _ hne).trans (update_apply_self _ _ _), ?_⟩
          rw [hr]
          exact ⟨rfl, rfl, rfl, rfl, rfl, rfl, rfl, rfl⟩
        · exact ⟨_, update_apply_self _ _ _,
            rfl, rfl, rfl, rfl, rfl, rfl, rfl, rfl, rfl, rfl⟩

/-- Witness for C10: the seed transfer of 1000 from 1001 to 1002 leaves
the target's daily-withdrawal fields and lock state untouched. -/
theorem C10_transfer_frame_witness :
    ∃ sb2, (transfer_funds (create_default_accounts ⟨2024, 1, 15⟩) "1001" "1002"
        1000 ⟨2024, 1, 15⟩ "ts").2 "1002" = some sb2 ∧
      sb2.withdrawn_today = 0 ∧ sb2.locked = false := by
  have hok : (transfer_funds (create_default_accounts ⟨2024, 1, 15⟩) "1001" "1002"
      1000 ⟨2024, 1, 15⟩ "ts").1 = Res.ok := by
    rw [transfer_eq_ok (create_default_accounts ⟨2024, 1, 15⟩) "1001" "1002" 1000
      ⟨2024, 1, 15⟩ "ts" (acct1002 ⟨2024, 1, 15⟩) (acct1001 ⟨2024, 1, 15⟩) rfl
      (by decide) (by norm_num) rfl ?_ ?_] <;>
      simp [reset_daily_withdraw_if_new_day, acct1001] <;> norm_num
  have h := C10_transfer_frame (create_default_accounts ⟨2024, 1, 15⟩)
    "1001" "1002" 1000 ⟨2024, 1, 15⟩ "ts"
    (acct1001 ⟨2024, 1, 15⟩) (acct1002 ⟨2024, 1, 15⟩) rfl rfl (by decide) hok
  obtain ⟨-, -, sb2, hmem, -, -, -, -, hlock, -, hwt, -⟩ := h
  exact ⟨sb2, hmem, by rw [hwt]; rfl, by rw [hlock]; rfl⟩

/-! ### Branch characterizations of `deposit_amount` and
`apply_interest_if_savings` -/

theorem deposit_eq_invalid (L : Ledger) (id : String) (amt : ℚ) (n : String)
    (hle : amt ≤ 0) : deposit_amount L id amt n = (Res.invalidAmount, L) := by
  unfold deposit_amount
  rw [if_pos hle]

theorem deposit_eq_missing (L : Ledger) (id : String) (amt : ℚ) (n : String)
    (hpos : ¬ amt ≤ 0) (h : L id = none) :
    deposit_amount L id amt n = (Res.notFound, L) := by
  unfold deposit_amount
  rw [if_neg hpos, h]

theorem deposit_eq_ok (L : Ledger) (id : String) (amt : ℚ) (n : String)
    (a : Account) (hpos : ¬ amt ≤ 0) (h : L id = some a) :
    deposit_amount L id amt n =
      (Res.ok, update L id (log_transaction { a with balance := a.balance + amt }
        "deposit" amt (a.balance + amt) n "Cash deposit")) := by
  unfold deposit_amount
  rw [if_neg hpos, h]

theorem interest_eq_missing (L : Ledger) (id : String) (d : Date) (n : String)
    (h : L id = none) :
    apply_interest_if_savings L id d n = (Res.notFound, L) := by
  unfold apply_interest_if_savings
  rw [h]

theorem interest_eq_notSavings (L : Ledger) (id : String) (d : Date) (n : String)
    (a : Account) (h : L id = some a) (hs : a.ttype ≠ "savings") :
    apply_interest_if_savings L id d n = (Res.notSavings, L) := by
  unfold apply_interest_if_savings
  rw [h]
  simp only [if_pos hs]

theorem interest_eq_noRate (L : Ledger) (id : String) (d : Date) (n : String)
    (a : Account) (h : L id = some a) (hs : a.ttype = "savings")
    (hr : a.interest_rate ≤ 0) :
    apply_interest_if_savings L id d n = (Res.noRate, L) := by
  have hs2 : ¬ a.ttype ≠ "savings" := not_not_intro hs
  unfold apply_interest_if_savings
  rw [h]
  simp only [if_neg hs2, if_pos hr]

theorem interest_eq_upToDate (L : Ledger) (id : String) (d : Date) (n : String)
    (a : Account) (h : L id = some a) (hs : a.ttype = "savings")
    (hr : ¬ a.interest_rate ≤ 0) (hm : monthsBetween a.last_interest_date d ≤ 0) :
    apply_interest_if_savings L id d n = (Res.upToDate, L) := by
  have hs2 : ¬ a.ttype ≠ "savings" := not_not_intro hs
  unfold apply_interest_if_savings
  rw [h]
  simp only [if_neg hs2, if_neg hr, if_pos hm]

theorem interest_eq_zero (L : Ledger) (id : String) (d : Date) (n : String)
    (a : Account) (h : L id = some a) (hs : a.ttype = "savings")
    (hr : ¬ a.interest_rate ≤ 0) (hm : ¬ monthsBetween a.last_interest_date d ≤ 0)
    (hi : interestAmt a d ≤ 0) :
    apply_interest_if_savings L id d n = (Res.zeroInterest, L) := by
  have hs2 : ¬ a.ttype ≠ "savings" := not_not_intro hs
  unfold apply_interest_if_savings
  rw [h]
  simp only [if_neg hs2, if_neg hr, if_neg hm, if_pos hi]

theorem interest_eq_ok (L : Ledger) (id : String) (d : Date) (n : String)
    (a : Account) (h : L id = some a) (hs : a.ttype = "savings")
    (hr : ¬ a.interest_rate ≤ 0) (hm : ¬ monthsBetween a.last_interest_date d ≤ 0)
    (hi : ¬ interestAmt a d ≤ 0) :
    apply_interest_if_savings L id d n =
      (Res.ok, update L id (log_transaction
        { a with balance := a.balance + interestAmt a d, last_interest_date := d }
        "interest" (interestAmt a d) (a.balance + interestAmt a d)
        n ("Interest for " ++ toString (monthsBetween a.last_interest_date d)
            ++ " month(s)"))) := by
  have hs2 : ¬ a.ttype ≠ "savings" := not_not_intro hs
  unfold apply_interest_if_savings
  rw [h]
  simp only [if_neg hs2, if_neg hr, if_neg hm, if_neg hi]

theorem monthsBetween_self (d : Date) : monthsBetween d d = 0 := by
  unfold monthsBetween
  ring

/-- A second interest accrual on the same day is a no-op: once
`last_interest_date` equals today, the month count is zero. -/
theorem interest_upToDate_of_lastdate (L1 : Ledger) (id : String) (d : Date)
    (n2 : String) (a1 : Account) (h1 : L1 id = some a1)
    (hld : a1.last_interest_date = d) :
    (apply_interest_if_savings L1 id d n2).1 ≠ Res.ok ∧
    (apply_interest_if_savings L1 id d n2).2 = L1 := by
  by_cases hs : a1.ttype = "savings"
  · by_cases hr : a1.interest_rate ≤ 0
    · rw [interest_eq_noRate L1 id d n2 a1 h1 hs hr]
      exact ⟨fun hc => Res.noConfusion hc, rfl⟩
    · have hm : monthsBetween a1.last_interest_date d ≤ 0 := by
        rw [hld, monthsBetween_self]
      rw [interest_eq_upToDate L1 id d n2 a1 h1 hs hr hm]
      exact ⟨fun hc => Res.noConfusion hc, rfl⟩
  · rw [interest_eq_notSavings L1 id d n2 a1 h1 hs]
    exact ⟨fun hc => Res.noConfusion hc, rfl⟩

/-- C7: AccrueInterest(id) is a no-op when the account is not savings, the
rate is ≤ 0, the whole-month count `(today.year − last.year) * 12 +
(today.month − last.month)` is ≤ 0, or the computed interest is ≤ 0;
otherwise it adds `balance * (rate / 12) * months` to the balance, stamps
`last_interest_date` with today and logs one `interest` transaction; and a
second call on the same day is always a no-op. -/
theorem C7_interest_spec (L : Ledger) (id : String) (d : Date) (n n2 : String)
    (a : Account) (h : L id = some a) :
    ((a.ttype ≠ "savings" ∨ a.interest_rate ≤ 0 ∨
        monthsBetween a.last_interest_date d ≤ 0 ∨ interestAmt a d ≤ 0) →
      (apply_interest_if_savings L id d n).1 ≠ Res.ok ∧
      (apply_interest_if_savings L id d n).2 = L)
    ∧ (a.ttype = "savings" → 0 < a.interest_rate →
        0 < monthsBetween a.last_interest_date d → 0 < interestAmt a d →
        (apply_interest_if_savings L id d n).1 = Res.ok ∧
        ∃ a2 t, (apply_interest_if_savings L id d n).2 id = some a2 ∧
          a2.balance = a.balance + interestAmt a d ∧
          a2.last_interest_date = d ∧
          t.ttype = "interest" ∧ t.amount = interestAmt a d ∧
          a2.transactions =
            (a.transactions ++ [t]).drop (a.transactions.length + 1 - 50))
    ∧ ((apply_interest_if_savings (apply_interest_if_savings L id d n).2 id d n2).1
          ≠ Res.ok ∧
        (apply_interest_if_savings (apply_interest_if_savings L id d n).2 id d n2).2
          = (apply_interest_if_savings L id d n).2) := by
  refine ⟨?_, ?_, ?_⟩
  · intro hno
    by_cases hs : a.ttype = "savings"
    · by_cases hr : a.interest_rate ≤ 0
      · rw [interest_eq_noRate L id d n a h hs hr]
        exact ⟨fun hc => Res.noConfusion hc, rfl⟩
      · by_cases hm : monthsBetween a.last_interest_date d ≤ 0
        · rw [interest_eq_upToDate L id d n a h hs hr hm]
          exact ⟨fun hc => Res.noConfusion hc, rfl⟩
        · by_cases hi : interestAmt a d ≤ 0
          · rw [interest_eq_zero L id d n a h hs hr hm hi]
            exact ⟨fun hc => Res.noConfusion hc, rfl⟩
          · exfalso
            rcases hno with hh | hh | hh | hh
            exacts [hh hs, hr hh, hm hh, hi hh]
    · rw [interest_eq_notSavings L id d n a h hs]
      exact ⟨fun hc => Res.noConfusion hc, rfl⟩
  · intro hs hrpos hmpos hipos
    have hr := not_le.mpr hrpos
    have hm := not_le.mpr hmpos
    have hi := not_le.mpr hipos
    rw [interest_eq_ok L id d n a h hs hr hm hi]
    refine ⟨rfl, _,
      ⟨n, "interest", interestAmt a d, a.balance + interestAmt a d,
        "Interest for " ++ toString (monthsBetween a.last_interest_date d)
          ++ " month(s)"⟩,
      update_apply_self _ _ _, ?_, rfl, rfl, rfl, ?_⟩
    · rw [log_transaction_balance]
    · show pushTxn a.transactions _ = _
      rw [pushTxn_eq]
  · by_cases hs : a.ttype = "savings"
    · by_cases hr : a.interest_rate ≤ 0
      · rw [interest_eq_noRate L id d n a h hs hr]
        show (apply_interest_if_savings L id d n2).1 ≠ Res.ok ∧
          (apply_interest_if_savings L id d n2).2 = L
        rw [interest_eq_noRate L id d n2 a h hs hr]
        exact ⟨fun hc => Res.noConfusion hc, rfl⟩
      · by_cases hm : monthsBetween a.last_interest_date d ≤ 0
        · rw [interest_eq_upToDate L id d n a h hs hr hm]
          show (apply_interest_if_savings L id d n2).1 ≠ Res.ok ∧
            (apply_interest_if_savings L id d n2).2 = L
          rw [interest_eq_upToDate L id d n2 a h hs hr hm]
          exact ⟨fun hc => Res.noConfusion hc, rfl⟩
        · by_cases hi : interestAmt a d ≤ 0
          · rw [interest_eq_zero L id d n a h hs hr hm hi]
            show (apply_interest_if_savings L id d n2).1 ≠ Res.ok ∧
              (apply_interest_if_savings L id d n2).2 = L
            rw [interest_eq_zero L id d n2 a h hs hr hm hi]
            exact ⟨fun hc => Res.noConfusion hc, rfl⟩
          · rw [interest_eq_ok L id d n a h hs hr hm hi]
            exact interest_upToDate_of_lastdate _ id d n2 _
              (update_apply_self _ _ _) rfl
    · rw [interest_eq_notSavings L id d n a h hs]
      show (apply_interest_if_savings L id d n2).1 ≠ Res.ok ∧
        (apply_interest_if_savings L id d n2).2 = L
      rw [interest_eq_notSavings L id d n2 a h hs]
      exact ⟨fun hc => Res.noConfusion hc, rfl⟩

/-- Witness for C7: the seed savings account (rate 4%), last accrued
2023-10-15, accrues successfully on 2024-01-15 (3 whole months). -/
theorem C7_interest_spec_witness :
    (apply_interest_if_savings (create_default_accounts ⟨2023, 10, 15⟩) "1001"
      ⟨2024, 1, 15⟩ "ts").1 = Res.ok := by
  have h := C7_interest_spec (create_default_accounts ⟨2023, 10, 15⟩) "1001"
    ⟨2024, 1, 15⟩ "ts" "ts2" (acct1001 ⟨2023, 10, 15⟩) rfl
  refine (h.2.1 rfl ?_ ?_ ?_).1
  · norm_num [acct1001]
  · norm_num [acct1001, monthsBetween]
  · norm_num [interestAmt, acct1001, monthsBetween]

/-- Counterexample to C2 as stated: on the seed ledger dated 2024-01-01, a
withdrawal of 1000000 attempted on 2024-01-02 fails with
`InsufficientFunds`, yet account 1001 has been mutated in memory (its
daily window was reset: `last_withdraw_date` now reads 2024-01-02). -/
theorem C2_counterexample :
    (withdraw_amount (create_default_accounts ⟨2024, 1, 1⟩) "1001" 1000000
      ⟨2024, 1, 2⟩ "ts").1 = Res.insufficientFunds ∧
    (withdraw_amount (create_default_accounts ⟨2024, 1, 1⟩) "1001" 1000000
      ⟨2024, 1, 2⟩ "ts").2 "1001" ≠
      create_default_accounts ⟨2024, 1, 1⟩ "1001" := by
  have hins : (reset_daily_withdraw_if_new_day (acct1001 ⟨2024, 1, 1⟩)
      ⟨2024, 1, 2⟩).balance < 1000000 := by
    rw [reset_balance]
    norm_num [acct1001]
  have e := withdraw_eq_insufficient (create_default_accounts ⟨2024, 1, 1⟩)
    "1001" 1000000 ⟨2024, 1, 2⟩ "ts" (acct1001 ⟨2024, 1, 1⟩) (by norm_num) rfl hins
  refine ⟨by rw [e], ?_⟩
  rw [e]
  intro hc
  have h2 : reset_daily_withdraw_if_new_day (acct1001 ⟨2024, 1, 1⟩) ⟨2024, 1, 2⟩ =
      acct1001 ⟨2024, 1, 1⟩ := Option.some.inj hc
  have h3 := congrArg Account.last_withdraw_date h2
  have h4 : (reset_daily_withdraw_if_new_day (acct1001 ⟨2024, 1, 1⟩)
      ⟨2024, 1, 2⟩).last_withdraw_date = ⟨2024, 1, 2⟩ := by
    unfold reset_daily_withdraw_if_new_day
    rw [if_pos]
    intro hcc
    exact absurd (congrArg Date.day hcc) (by decide)
  rw [h4] at h3
  exact absurd (congrArg Date.day h3) (by decide)

/-- C2 (amended): a failing Deposit or AccrueInterest leaves the ledger
exactly unchanged; a failing Withdraw or Transfer leaves every account
other than the debited one unchanged, and the debited account is at most
replaced by its daily-window reset (`withdrawn_today := 0`,
`last_withdraw_date := today` when the stored date differs) — no balance
change and no appended transaction ever results from a failed call. -/
theorem C2_failure_frame (L : Ledger) (id src tgt : String) (amt : ℚ) (d : Date)
    (n : String) :
    ((deposit_amount L id amt n).1 ≠ Res.ok → (deposit_amount L id amt n).2 = L)
    ∧ ((apply_interest_if_savings L id d n).1 ≠ Res.ok →
        (apply_interest_if_savings L id d n).2 = L)
    ∧ ((withdraw_amount L id amt d n).1 ≠ Res.ok →
        (∀ k, k ≠ id → (withdraw_amount L id amt d n).2 k = L k)
        ∧ ((withdraw_amount L id amt d n).2 id = L id ∨
            ∃ a, L id = some a ∧ (withdraw_amount L id amt d n).2 id =
              some (reset_daily_withdraw_if_new_day a d)))
    ∧ ((transfer_funds L src tgt amt d n).1 ≠ Res.ok →
        (∀ k, k ≠ src → (transfer_funds L src tgt amt d n).2 k = L k)
        ∧ ((transfer_funds L src tgt amt d n).2 src = L src ∨
            ∃ s, L src = some s ∧ (transfer_funds L src tgt amt d n).2 src =
              some (reset_daily_withdraw_if_new_day s d))) := by
  refine ⟨?_, ?_, ?_, ?_⟩
  · intro hne
    by_cases h1 : amt ≤ 0
    · rw [deposit_eq_invalid L id amt n h1]
    · match hL : L id with
      | none => rw [deposit_eq_missing L id amt n h1 hL]
      | some a => rw [deposit_eq_ok L id amt n a h1 hL] at hne; exact absurd rfl hne
  · intro hne
    match hL : L id with
    | none => rw [interest_eq_missing L id d n hL]
    | some a =>
      by_cases hs : a.ttype = "savings"
      · by_cases hr : a.interest_rate ≤ 0
        · rw [interest_eq_noRate L id d n a hL hs hr]
        · by_cases hm : monthsBetween a.last_interest_date d ≤ 0
          · rw [interest_eq_upToDate L id d n a hL hs hr hm]
          · by_cases hi : interestAmt a d ≤ 0
            · rw [interest_eq_zero L id d n a hL hs hr hm hi]
            · rw [interest_eq_ok L id d n a hL hs hr hm hi] at hne
              exact absurd rfl hne
      · rw [interest_eq_notSavings L id d n a hL hs]
  · intro hne
    by_cases h1 : amt ≤ 0
    · rw [withdraw_eq_invalid L id amt d n h1]
      exact ⟨fun k _ => rfl, Or.inl rfl⟩
    · match hL : L id with
      | none =>
        rw [withdraw_eq_missing L id amt d n h1 hL]
        exact ⟨fun k _ => rfl, Or.inl hL⟩
      | some a =>
        by_cases h2 : (reset_daily_withdraw_if_new_day a d).balance < amt
        · rw [withdraw_eq_insufficient L id amt d n a h1 hL h2]
          exact ⟨fun k hk => update_apply_ne _ _ _ _ hk,
            Or.inr ⟨a, rfl, update_apply_self _ _ _⟩⟩
        · by_cases h3 : (reset_daily_withdraw_if_new_day a d).daily_limit <
            (reset_daily_withdraw_if_new_day a d).withdrawn_today + amt
          · rw [withdraw_eq_limit L id amt d n a h1 hL h2 h3]
            exact ⟨fun k hk => update_apply_ne _ _ _ _ hk,
              Or.inr ⟨a, rfl, update_apply_self _ _ _⟩⟩
          · rw [withdraw_eq_ok L id amt d n a h1 hL h2 h3] at hne
            exact absurd rfl hne
  · intro hne
    match hT : L tgt with
    | none =>
      rw [transfer_eq_noTarget L src tgt amt d n hT]
      exact ⟨fun k _ => rfl, Or.inl rfl⟩
    | some t =>
      by_cases hsame : tgt = src
      · rw [transfer_eq_same L src tgt amt d n t hT hsame]
        exact ⟨fun k _ => rfl, Or.inl rfl⟩
      · by_cases h1 : amt ≤ 0
        · rw [transfer_eq_invalid L src tgt amt d n t hT hsame h1]
          exact ⟨fun k _ => rfl, Or.inl rfl⟩
        · match hS : L src with
          | none =>
            have : transfer_funds L src tgt amt d n = (Res.notFound, L) := by
              unfold transfer_funds
              rw [hT]
              simp only [Option.isNone_some, Bool.false_eq_true, if_false,
                if_neg hsame, if_neg h1]
              rw [hS]
            rw [this]
            exact ⟨fun k _ => rfl, Or.inl hS⟩
          | some s =>
            by_cases h2 : (reset_daily_withdraw_if_new_day s d).balance < amt
            · rw [transfer_eq_insufficient L src tgt amt d n t s hT hsame h1 hS h2]
              exact ⟨fun k hk => update_apply_ne _ _ _ _ hk,
                Or.inr ⟨s, rfl, update_apply_self _ _ _⟩⟩
            · by_cases h3 : (reset_daily_withdraw_if_new_day s d).daily_limit <
                (reset_daily_withdraw_if_new_day s d).withdrawn_today + amt
              · rw [transfer_eq_limit L src tgt amt d n t s hT hsame h1 hS h2 h3]
                exact ⟨fun k hk => update_apply_ne _ _ _ _ hk,
                  Or.inr ⟨s, rfl, update_apply_self _ _ _⟩⟩
              · rw [transfer_eq_ok L src tgt amt d n t s hT hsame h1 hS h2 h3] at hne
                exact absurd rfl hne

/-- Witness for C2 (amended): a deposit of -5 into seed account 1001 fails
and leaves the ledger unchanged. -/
theorem C2_failure_frame_witness :
    (deposit_amount (create_default_accounts ⟨2024, 1, 15⟩) "1001" (-5) "ts").2 =
      create_default_accounts ⟨2024, 1, 15⟩ := by
  refine (C2_failure_frame (create_default_accounts ⟨2024, 1, 15⟩) "1001" "1001"
    "1002" (-5) ⟨2024, 1, 15⟩ "ts").1 ?_
  rw [deposit_eq_invalid _ _ _ _ (by norm_num)]
  exact fun hc => Res.noConfusion hc

/-! ### Step characterizations of `authenticate` -/

theorem authLoop_fuel_zero (id : String) (a : Account) (L D : Ledger)
    (pins : List String) :
    authLoop id a L D pins 0 = ⟨AuthRes.failedOut, L, L, []⟩ := by
  cases pins <;> rfl

theorem authLoop_nil (id : String) (a : Account) (L D : Ledger) (fuel : Nat) :
    authLoop id a L D [] (fuel + 1) = ⟨AuthRes.failedOut, L, L, []⟩ := rfl

theorem authLoop_correct (id : String) (a : Account) (L D : Ledger) (p : String)
    (rest : List String) (fuel : Nat) (hp : p = a.pin) :
    authLoop id a L D (p :: rest) (fuel + 1) =
      ⟨AuthRes.authed id, update L id { a with failed_attempts := 0 },
        update L id { a with failed_attempts := 0 },
        [(update L id { a with failed_attempts := 0 },
          update L id { a with failed_attempts := 0 })]⟩ := by
  unfold authLoop
  rw [if_pos hp]

theorem authLoop_wrong_lock (id : String) (a : Account) (L D : Ledger) (p : String)
    (rest : List String) (fuel : Nat) (hp : ¬ p = a.pin)
    (hf : 3 ≤ a.failed_attempts + 1) :
    authLoop id a L D (p :: rest) (fuel + 1) =
      ⟨AuthRes.lockedOut,
        update L id { a with failed_attempts := a.failed_attempts + 1, locked := true },
        update L id { a with failed_attempts := a.failed_attempts + 1, locked := true },
        [(update L id { a with failed_attempts := a.failed_attempts + 1, locked := true },
          update L id { a with failed_attempts := a.failed_attempts + 1, locked := true })]⟩ := by
  unfold authLoop
  simp only [if_neg hp]
  rw [if_pos hf]

theorem authLoop_wrong_cont (id : String) (a : Account) (L D : Ledger) (p : String)
    (rest : List String) (fuel : Nat) (hp : ¬ p = a.pin)
    (hf : ¬ 3 ≤ a.failed_attempts + 1) :
    authLoop id a L D (p :: rest) (fuel + 1) =
      ⟨(authLoop id { a with failed_attempts := a.failed_attempts + 1 }
          (update L id { a with failed_attempts := a.failed_attempts + 1 }) D rest fuel).res,
        (authLoop id { a with failed_attempts := a.failed_attempts + 1 }
          (update L id { a with failed_attempts := a.failed_attempts + 1 }) D rest fuel).mem,
        (authLoop id { a with failed_attempts := a.failed_attempts + 1 }
          (update L id { a with failed_attempts := a.failed_attempts + 1 }) D rest fuel).disk,
        (update L id { a with failed_attempts := a.failed_attempts + 1 }, D) ::
          (authLoop id { a with failed_attempts := a.failed_attempts + 1 }
            (update L id { a with failed_attempts := a.failed_attempts + 1 }) D rest fuel).trace⟩ := by
  rw [authLoop]
  simp only [if_neg hp]
  rw [if_neg hf]

theorem authenticate_eq_loop (L D : Ledger) (id : String) (pins : List String)
    (a : Account) (h : L id = some a) (hl : a.locked = false) :
    authenticate L D id pins = authLoop id a L D pins 3 := by
  have hnl : ¬ a.locked = true := by
    rw [hl]
    exact fun hc => Bool.noConfusion hc
  unfold authenticate
  simp only [h]
  rw [if_neg hnl]

/-- Submitting only wrong PINs locks the account once enough submissions
and loop iterations remain to drive `failed_attempts` to 3. -/
theorem authLoop_wrong_locks (id : String) : ∀ (fuel : Nat) (pins : List String)
    (a : Account) (L D : Ledger),
    (∀ p ∈ pins, ¬ p = a.pin) → 1 ≤ fuel → 1 ≤ pins.length →
    3 ≤ a.failed_attempts + fuel → 3 ≤ a.failed_attempts + pins.length →
    (authLoop id a L D pins fuel).res = AuthRes.lockedOut ∧
    ∃ a2, (authLoop id a L D pins fuel).mem id = some a2 ∧ a2.locked = true := by
  intro fuel
  induction fuel with
  | zero => intro pins a L D _ h1 _ _ _; omega
  | succ f ih =>
    intro pins a L D hW _ h2 h3 h4
    cases pins with
    | nil => simp at h2
    | cons p rest =>
      have hp := hW p (List.mem_cons_self p rest)
      by_cases hl3 : 3 ≤ a.failed_attempts + 1
      · rw [authLoop_wrong_lock id a L D p rest f hp hl3]
        exact ⟨rfl, _, update_apply_self _ _ _, rfl⟩
      · rw [authLoop_wrong_cont id a L D p rest f hp hl3]
        have ha2 : ({ a with failed_attempts := a.failed_attempts + 1 } :
            Account).failed_attempts = a.failed_attempts + 1 := rfl
        exact ih rest { a with failed_attempts := a.failed_attempts + 1 }
          (update L id { a with failed_attempts := a.failed_attempts + 1 }) D
          (fun q hq => hW q (List.mem_cons_of_mem p hq))
          (by omega)
          (by simp only [List.length_cons] at h4; omega)
          (by rw [ha2]; omega)
          (by rw [ha2]; simp only [List.length_cons] at h4 ⊢; omega)

/-- A run of fewer than `3 - failed_attempts` wrong PINs followed by the
correct PIN authenticates and resets the failure counter. -/
theorem authLoop_wrongs_then_correct (id : String) : ∀ (ws : List String)
    (a : Account) (L D : Ledger) (fuel : Nat),
    (∀ w ∈ ws, ¬ w = a.pin) → a.failed_attempts + ws.length < 3 →
    ws.length < fuel →
    (authLoop id a L D (ws ++ [a.pin]) fuel).res = AuthRes.authed id ∧
    ∃ a2, (authLoop id a L D (ws ++ [a.pin]) fuel).mem id = some a2 ∧
      a2.failed_attempts = 0 := by
  intro ws
  induction ws with
  | nil =>
    intro a L D fuel _ _ hfuel
    cases fuel with
    | zero => simp at hfuel
    | succ f =>
      rw [List.nil_append, authLoop_correct id a L D a.pin [] f rfl]
      exact ⟨rfl, _, update_apply_self _ _ _, rfl⟩
  | cons w ws2 ih =>
    intro a L D fuel hW hcnt hfuel
    cases fuel with
    | zero => simp at hfuel
    | succ f =>
      have hp := hW w (List.mem_cons_self w ws2)
      have hnl : ¬ 3 ≤ a.failed_attempts + 1 := by
        simp only [List.length_cons] at hcnt
        omega
      have ha2 : ({ a with failed_attempts := a.failed_attempts + 1 } :
          Account).failed_attempts = a.failed_attempts + 1 := rfl
      rw [List.cons_append, authLoop_wrong_cont id a L D w (ws2 ++ [a.pin]) f hp hnl]
      exact ih { a with failed_attempts := a.failed_attempts + 1 }
        (update L id { a with failed_attempts := a.failed_attempts + 1 }) D f
        (fun q hq => hW q (List.mem_cons_of_mem w hq))
        (by rw [ha2]; simp only [List.length_cons] at hcnt; omega)
        (by simp only [List.length_cons] at hfuel; omega)

/-- C5: against an existing unlocked account, three consecutive wrong-PIN
submissions in one `authenticate` call lock the account and end the
attempt with the locked outcome; and starting from a zero failure count, a
correct PIN submitted before the third failure resets `failed_attempts` to
0 and returns the authenticated account id. -/
theorem C5_lockout (L D : Ledger) (id : String) (a : Account)
    (h : L id = some a) (hl : a.locked = false) :
    (∀ p1 p2 p3 : String, ¬ p1 = a.pin → ¬ p2 = a.pin → ¬ p3 = a.pin →
      (authenticate L D id [p1, p2, p3]).res = AuthRes.lockedOut ∧
      ∃ a2, (authenticate L D id [p1, p2, p3]).mem id = some a2 ∧
        a2.locked = true)
    ∧ (a.failed_attempts = 0 → ∀ ws : List String, ws.length ≤ 2 →
        (∀ w ∈ ws, ¬ w = a.pin) →
        (authenticate L D id (ws ++ [a.pin])).res = AuthRes.authed id ∧
        ∃ a2, (authenticate L D id (ws ++ [a.pin])).mem id = some a2 ∧
          a2.failed_attempts = 0) := by
  constructor
  · intro p1 p2 p3 hp1 hp2 hp3
    rw [authenticate_eq_loop L D id [p1, p2, p3] a h hl]
    refine authLoop_wrong_locks id 3 [p1, p2, p3] a L D ?_ (by omega) ?_ (by omega) ?_
    · intro p hp
      simp only [List.mem_cons, List.not_mem_nil, or_false] at hp
      rcases hp with rfl | rfl | rfl <;> assumption
    · simp
    · simp only [List.length_cons, List.length_nil]
      omega
  · intro hfa ws hlen hws
    rw [authenticate_eq_loop L D id (ws ++ [a.pin]) a h hl]
    exact authLoop_wrongs_then_correct id ws a L D 3 hws (by omega) (by omega)

/-- Witness for C5: three wrong PINs lock seed account 1001; the correct
PIN authenticates it. -/
theorem C5_lockout_witness :
    (authenticate (create_default_accounts ⟨2024, 1, 15⟩)
      (create_default_accounts ⟨2024, 1, 15⟩) "1001"
      ["0000", "1111", "2222"]).res = AuthRes.lockedOut ∧
    (authenticate (create_default_accounts ⟨2024, 1, 15⟩)
      (create_default_accounts ⟨2024, 1, 15⟩) "1001"
      ["1234"]).res = AuthRes.authed "1001" := by
  have h := C5_lockout (create_default_accounts ⟨2024, 1, 15⟩)
    (create_default_accounts ⟨2024, 1, 15⟩) "1001" (acct1001 ⟨2024, 1, 15⟩) rfl rfl
  have hw1 : ¬ ("0000" : String) = "1234" := by decide
  have hw2 : ¬ ("1111" : String) = "1234" := by decide
  have hw3 : ¬ ("2222" : String) = "1234" := by decide
  constructor
  · exact (h.1 "0000" "1111" "2222" hw1 hw2 hw3).1
  · exact (h.2 rfl [] (by simp) (by simp)).1

/-- Counterexample to C9 as stated: on the seed ledger, submitting one
wrong PIN and then the right one leaves a trace step (the failed
submission) whose persisted ledger still shows `failed_attempts = 0`
while the in-memory ledger shows 1 — the failure was not saved. -/
theorem C9_counterexample :
    ∃ p ∈ (authenticate (create_default_accounts ⟨2024, 1, 15⟩)
      (create_default_accounts ⟨2024, 1, 15⟩) "1001" ["0000", "1234"]).trace,
      p.1 "1001" ≠ p.2 "1001" := by
  have hw : ¬ ("0000" : String) = (acct1001 ⟨2024, 1, 15⟩).pin := by decide
  have hnl : ¬ 3 ≤ (acct1001 ⟨2024, 1, 15⟩).failed_attempts + 1 := by decide
  rw [authenticate_eq_loop _ _ "1001" _ (acct1001 ⟨2024, 1, 15⟩) rfl rfl,
    authLoop_wrong_cont "1001" (acct1001 ⟨2024, 1, 15⟩) _ _ "0000" ["1234"] 2 hw hnl]
  refine ⟨_, List.mem_cons_self _ _, ?_⟩
  intro hc
  have h2 : ({ acct1001 ⟨2024, 1, 15⟩ with failed_attempts := (acct1001 ⟨2024, 1, 15⟩).failed_attempts + 1 } : Account) = acct1001 ⟨2024, 1, 15⟩ := Option.some.inj hc
  have h3 := congrArg Account.failed_attempts h2
  exact absurd h3 (by decide)

/-- The save discipline of the authentication loop: after any processed
submission the persisted ledger either equals the in-memory ledger (the
submission was a success or a lock, both saved) or is still the pre-call
persisted ledger (plain failures are not saved); once the loop consumes
its full budget the final state is saved. -/
theorem authLoop_save_discipline (id : String) (D : Ledger) :
    ∀ (fuel : Nat) (pins : List String) (a : Account) (L : Ledger),
    (∀ p ∈ (authLoop id a L D pins fuel).trace, p.2 = p.1 ∨ p.2 = D)
    ∧ (fuel ≤ pins.length →
        (authLoop id a L D pins fuel).disk = (authLoop id a L D pins fuel).mem) := by
  intro fuel
  induction fuel with
  | zero =>
    intro pins a L
    rw [authLoop_fuel_zero]
    exact ⟨by simp, fun _ => rfl⟩
  | succ f ih =>
    intro pins a L
    cases pins with
    | nil =>
      rw [authLoop_nil]
      exact ⟨by simp, fun _ => rfl⟩
    | cons p rest =>
      by_cases hp : p = a.pin
      · rw [authLoop_correct id a L D p rest f hp]
        refine ⟨?_, fun _ => rfl⟩
        intro q hq
        rcases List.mem_singleton.mp hq with rfl
        exact Or.inl rfl
      · by_cases hl3 : 3 ≤ a.failed_attempts + 1
        · rw [authLoop_wrong_lock id a L D p rest f hp hl3]
          refine ⟨?_, fun _ => rfl⟩
          intro q hq
          rcases List.mem_singleton.mp hq with rfl
          exact Or.inl rfl
        · rw [authLoop_wrong_cont id a L D p rest f hp hl3]
          constructor
          · intro q hq
            rcases List.mem_cons.mp hq with rfl | hq2
            · exact Or.inr rfl
            · exact (ih rest _ _).1 q hq2
          · intro hle
            exact (ih rest _ _).2 (by simp only [List.length_cons] at hle; omega)

/-- C9 (amended): the store is persisted when a submission succeeds or
locks the account (those trace steps have persisted = memory) and once
after the loop ends; after an intermediate failed submission the
persisted ledger is still the pre-call one, so failed submissions are
batched into the final save rather than saved individually. -/
theorem C9_save_points (L D : Ledger) (id : String) (pins : List String)
    (a : Account) (h : L id = some a) (hl : a.locked = false) :
    (∀ p ∈ (authenticate L D id pins).trace, p.2 = p.1 ∨ p.2 = D)
    ∧ (3 ≤ pins.length →
        (authenticate L D id pins).disk = (authenticate L D id pins).mem) := by
  rw [authenticate_eq_loop L D id pins a h hl]
  exact ⟨(authLoop_save_discipline id D 3 pins a L).1,
    fun hle => (authLoop_save_discipline id D 3 pins a L).2 hle⟩

/-- Witness for C9 (amended): a concrete three-submission run on the seed
ledger ends with the persisted ledger equal to the in-memory one. -/
theorem C9_save_points_witness :
    (authenticate (create_default_accounts ⟨2024, 1, 15⟩)
      (create_default_accounts ⟨2024, 1, 15⟩) "1001"
      ["0000", "1111", "2222"]).disk =
    (authenticate (create_default_accounts ⟨2024, 1, 15⟩)
      (create_default_accounts ⟨2024, 1, 15⟩) "1001"
      ["0000", "1111", "2222"]).mem := by
  exact (C9_save_points (create_default_accounts ⟨2024, 1, 15⟩)
    (create_default_accounts ⟨2024, 1, 15⟩) "1001" ["0000", "1111", "2222"]
    (acct1001 ⟨2024, 1, 15⟩) rfl rfl).2 (by simp)

/-- The transaction history never exceeds 50 entries after a log call. -/
theorem pushTxn_length_le (l : List Txn) (t : Txn) : (pushTxn l t).length ≤ 50 := by
  rw [pushTxn_eq]
  simp only [List.length_drop, List.length_append, List.length_singleton]
  omega

/-- Every entry of a logged history is an old entry or the new record. -/
theorem pushTxn_mem (l : List Txn) (t u : Txn) (h : u ∈ pushTxn l t) :
    u ∈ l ∨ u = t := by
  rw [pushTxn_eq] at h
  have h2 := List.drop_subset _ _ h
  rcases List.mem_append.mp h2 with h3 | h3
  · exact Or.inl h3
  · exact Or.inr (List.mem_singleton.mp h3)

/-- Folding `log_transaction` over any stream of records, starting from an
empty history, retains exactly the most recent 50 records in order. -/
theorem pushTxn_foldl (ts : List Txn) :
    List.foldl pushTxn [] ts = ts.drop (ts.length - 50) := by
  induction ts using List.reverseRecOn with
  | nil => rfl
  | append_singleton l t ih =>
    rw [List.foldl_append, List.foldl_cons, List.foldl_nil, ih, pushTxn_eq,
      List.length_drop]
    rw [← List.drop_append_of_le_length (by omega)]
    rw [List.drop_drop]
    congr 1
    simp only [List.length_append, List.length_singleton]
    omega

/-! ### Branch characterizations of the admin operations -/

theorem create_eq_dup (L : Ledger) (id nm pin : String) (ob : ℚ) (ty : String)
    (d : Date) (n : String) (a : Account) (h : L id = some a) :
    create_account L id nm pin ob ty d n = (Res.duplicateId, L) := by
  unfold create_account
  rw [h]
  rfl

theorem create_eq_badPin (L : Ledger) (id nm pin : String) (ob : ℚ) (ty : String)
    (d : Date) (n : String) (hnew : L id = none)
    (hpin : ¬ (pin.length = 4 ∧ pin.data.all Char.isDigit)) :
    create_account L id nm pin ob ty d n = (Res.invalidPin, L) := by
  unfold create_account
  rw [hnew]
  simp only [Option.isSome_none, Bool.false_eq_true, if_false, if_pos hpin]

theorem create_eq_badType (L : Ledger) (id nm pin : String) (ob : ℚ) (ty : String)
    (d : Date) (n : String) (hnew : L id = none)
    (hpin : pin.length = 4 ∧ pin.data.all Char.isDigit)
    (hty : ¬ (ty = "savings" ∨ ty = "current")) :
    create_account L id nm pin ob ty d n = (Res.invalidType, L) := by
  have h1 : ¬¬(pin.length = 4 ∧ pin.data.all Char.isDigit) := not_not_intro hpin
  unfold create_account
  rw [hnew]
  simp only [Option.isSome_none, Bool.false_eq_true, if_false, if_neg h1, if_pos hty]

theorem create_eq_ok (L : Ledger) (id nm pin : String) (ob : ℚ) (ty : String)
    (d : Date) (n : String) (hnew : L id = none)
    (hpin : pin.length = 4 ∧ pin.data.all Char.isDigit)
    (hty : ty = "savings" ∨ ty = "current") :
    create_account L id nm pin ob ty d n =
      (Res.ok, update L id (log_transaction
        { name := nm, pin := pin, balance := ob, ttype := ty, transactions := [],
          failed_attempts := 0, locked := false, daily_limit := 20000,
          withdrawn_today := 0, last_withdraw_date := d,
          interest_rate := if ty = "savings" then (4 / 100 : ℚ) else 0,
          last_interest_date := d }
        "deposit" ob ob n "Opening deposit")) := by
  have h1 : ¬¬(pin.length = 4 ∧ pin.data.all Char.isDigit) := not_not_intro hpin
  have h2 : ¬¬(ty = "savings" ∨ ty = "current") := not_not_intro hty
  unfold create_account
  rw [hnew]
  simp only [Option.isSome_none, Bool.false_eq_true, if_false, if_neg h1, if_neg h2]

theorem unlock_eq_ok (L : Ledger) (id : String) (a : Account) (h : L id = some a) :
    unlock_account L id =
      (Res.ok, update L id { a with locked := false, failed_attempts := 0 }) := by
  unfold unlock_account
  rw [h]

/-! ### Account-origin characterizations: every account in a
post-operation ledger is an untouched old account or one of the
operation's explicitly constructed accounts. -/

theorem deposit_shape (L : Ledger) (id : String) (amt : ℚ) (n : String)
    (k : String) (a2 : Account)
    (h : (deposit_amount L id amt n).2 k = some a2) :
    L k = some a2 ∨ (k = id ∧ 0 < amt ∧ ∃ a, L id = some a ∧
      a2 = log_transaction { a with balance := a.balance + amt } "deposit"
        amt (a.balance + amt) n "Cash deposit") := by
  by_cases h1 : amt ≤ 0
  · rw [deposit_eq_invalid L id amt n h1] at h
    exact Or.inl h
  · cases hL : L id with
    | none =>
      rw [deposit_eq_missing L id amt n h1 hL] at h
      exact Or.inl h
    | some a =>
      rw [deposit_eq_ok L id amt n a h1 hL] at h
      dsimp only at h
      by_cases hk : k = id
      · subst hk
        rw [update_apply_self] at h
        exact Or.inr ⟨rfl, not_le.mp h1, a, rfl, (Option.some.inj h).symm⟩
      · rw [update_apply_ne _ _ _ _ hk] at h
        exact Or.inl h

theorem withdraw_shape (L : Ledger) (id : String) (amt : ℚ) (d : Date)
    (n : String) (k : String) (a2 : Account)
    (h : (withdraw_amount L id amt d n).2 k = some a2) :
    L k = some a2 ∨ (k = id ∧ ∃ a, L id = some a ∧
      (a2 = reset_daily_withdraw_if_new_day a d
       ∨ (0 < amt ∧ amt ≤ (reset_daily_withdraw_if_new_day a d).balance ∧
          a2 = log_transaction
            { reset_daily_withdraw_if_new_day a d with
                balance := (reset_daily_withdraw_if_new_day a d).balance - amt,
                withdrawn_today :=
                  (reset_daily_withdraw_if_new_day a d).withdrawn_today + amt,
                last_withdraw_date := d }
            "withdraw" amt ((reset_daily_withdraw_if_new_day a d).balance - amt)
            n "Cash withdrawal"))) := by
  by_cases h1 : amt ≤ 0
  · rw [withdraw_eq_invalid L id amt d n h1] at h
    exact Or.inl h
  · cases hL : L id with
    | none =>
      rw [withdraw_eq_missing L id amt d n h1 hL] at h
      exact Or.inl h
    | some a =>
      by_cases h2 : (reset_daily_withdraw_if_new_day a d).balance < amt
      · rw [withdraw_eq_insufficient L id amt d n a h1 hL h2] at h
        dsimp only at h
        by_cases hk : k = id
        · subst hk
          rw [update_apply_self] at h
          exact Or.inr ⟨rfl, a, rfl, Or.inl (Option.some.inj h).symm⟩
        · rw [update_apply_ne _ _ _ _ hk] at h
          exact Or.inl h
      · by_cases h3 : (reset_daily_withdraw_if_new_day a d).daily_limit <
          (reset_daily_withdraw_if_new_day a d).withdrawn_today + amt
        · rw [withdraw_eq_limit L id amt d n a h1 hL h2 h3] at h
          dsimp only at h
          by_cases hk : k = id
          · subst hk
            rw [update_apply_self] at h
            exact Or.inr ⟨rfl, a, rfl, Or.inl (Option.some.inj h).symm⟩
          · rw [update_apply_ne _ _ _ _ hk] at h
            exact Or.inl h
        · rw [withdraw_eq_ok L id amt d n a h1 hL h2 h3] at h
          dsimp only at h
          by_cases hk : k = id
          · subst hk
            rw [update_apply_self] at h
            exact Or.inr ⟨rfl, a, rfl,
              Or.inr ⟨not_le.mp h1, not_lt.mp h2, (Option.some.inj h).symm⟩⟩
          · rw [update_apply_ne _ _ _ _ hk] at h
            exact Or.inl h

theorem transfer_eq_noSource (L : Ledger) (src tgt : String) (amt : ℚ)
    (d : Date) (n : String) (t : Account) (ht : L tgt = some t) (hs : tgt ≠ src)
    (hle : ¬ amt ≤ 0) (hsrc : L src = none) :
    transfer_funds L src tgt amt d n = (Res.notFound, L) := by
  unfold transfer_funds
  rw [ht]
  simp only [Option.isNone_some, Bool.false_eq_true, if_false, if_neg hs, if_neg hle]
  rw [hsrc]

theorem transfer_shape (L : Ledger) (src tgt : String) (amt : ℚ) (d : Date)
    (n : String) (k : String) (a2 : Account)
    (h : (transfer_funds L src tgt amt d n).2 k = some a2) :
    L k = some a2
    ∨ (k = src ∧ ∃ s, L src = some s ∧
        (a2 = reset_daily_withdraw_if_new_day s d
         ∨ (0 < amt ∧ amt ≤ (reset_daily_withdraw_if_new_day s d).balance ∧
            a2 = log_transaction
              { reset_daily_withdraw_if_new_day s d with
                  balance := (reset_daily_withdraw_if_new_day s d).balance - amt,
                  withdrawn_today :=
                    (reset_daily_withdraw_if_new_day s d).withdrawn_today + amt,
                  last_withdraw_date := d }
              "transfer_out" amt ((reset_daily_withdraw_if_new_day s d).balance - amt)
              n ("Transfer to " ++ tgt))))
    ∨ (k = tgt ∧ 0 < amt ∧ ∃ t, L tgt = some t ∧
        a2 = log_transaction { t with balance := t.balance + amt } "transfer_in"
          amt (t.balance + amt) n ("Transfer from " ++ src)) := by
  cases hT : L tgt with
  | none =>
    rw [transfer_eq_noTarget L src tgt amt d n hT] at h
    exact Or.inl h
  | some t =>
    by_cases hsame : tgt = src
    · rw [transfer_eq_same L src tgt amt d n t hT hsame] at h
      exact Or.inl h
    · by_cases h1 : amt ≤ 0
      · rw [transfer_eq_invalid L src tgt amt d n t hT hsame h1] at h
        exact Or.inl h
      · cases hS : L src with
        | none =>
          rw [transfer_eq_noSource L src tgt amt d n t hT hsame h1 hS] at h
          exact Or.inl h
        | some s =>
          by_cases h2 : (reset_daily_withdraw_if_new_day s d).balance < amt
          · rw [transfer_eq_insufficient L src tgt amt d n t s hT hsame h1 hS h2] at h
            dsimp only at h
            by_cases hk : k = src
            · subst hk
              rw [update_apply_self] at h
              exact Or.inr (Or.inl ⟨rfl, s, rfl, Or.inl (Option.some.inj h).symm⟩)
            · rw [update_apply_ne _ _ _ _ hk] at h
              exact Or.inl h
          · by_cases h3 : (reset_daily_withdraw_if_new_day s d).daily_limit <
              (reset_daily_withdraw_if_new_day s d).withdrawn_today + amt
            · rw [transfer_eq_limit L src tgt amt d n t s hT hsame h1 hS h2 h3] at h
              dsimp only at h
              by_cases hk : k = src
              · subst hk
                rw [update_apply_self] at h
                exact Or.inr (Or.inl ⟨rfl, s, rfl, Or.inl (Option.some.inj h).symm⟩)
              · rw [update_apply_ne _ _ _ _ hk] at h
                exact Or.inl h
            · rw [transfer_eq_ok L src tgt amt d n t s hT hsame h1 hS h2 h3] at h
              dsimp only at h
              by_cases hk : k = tgt
              · subst hk
                rw [update_apply_self] at h
                exact Or.inr (Or.inr ⟨rfl, not_le.mp h1, t, rfl,
                  (Option.some.inj h).symm⟩)
              · rw [update_apply_ne _ _ _ _ hk] at h
                by_cases hk2 : k = src
                · subst hk2
                  rw [update_apply_self] at h
                  exact Or.inr (Or.inl ⟨rfl, s, rfl,
                    Or.inr ⟨not_le.mp h1, not_lt.mp h2, (Option.some.inj h).symm⟩⟩)
                · rw [update_apply_ne _ _ _ _ hk2] at h
                  exact Or.inl h

theorem interest_shape (L : Ledger) (id : String) (d : Date) (n : String)
    (k : String) (a2 : Account)
    (h : (apply_interest_if_savings L id d n).2 k = some a2) :
    L k = some a2 ∨ (k = id ∧ ∃ a, L id = some a ∧ 0 < interestAmt a d ∧
      a2 = log_transaction
        { a with balance := a.balance + interestAmt a d, last_interest_date := d }
        "interest" (interestAmt a d) (a.balance + interestAmt a d) n
        ("Interest for " ++ toString (monthsBetween a.last_interest_date d)
          ++ " month(s)")) := by
  cases hL : L id with
  | none =>
    rw [interest_eq_missing L id d n hL] at h
    exact Or.inl h
  | some a =>
    by_cases hs : a.ttype = "savings"
    · by_cases hr : a.interest_rate ≤ 0
      · rw [interest_eq_noRate L id d n a hL hs hr] at h
        exact Or.inl h
      · by_cases hm : monthsBetween a.last_interest_date d ≤ 0
        · rw [interest_eq_upToDate L id d n a hL hs hr hm] at h
          exact Or.inl h
        · by_cases hi : interestAmt a d ≤ 0
          · rw [interest_eq_zero L id d n a hL hs hr hm hi] at h
            exact Or.inl h
          · rw [interest_eq_ok L id d n a hL hs hr hm hi] at h
            dsimp only at h
            by_cases hk : k = id
            · subst hk
              rw [update_apply_self] at h
              exact Or.inr ⟨rfl, a, rfl, not_le.mp hi, (Option.some.inj h).symm⟩
            · rw [update_apply_ne _ _ _ _ hk] at h
              exact Or.inl h
    · rw [interest_eq_notSavings L id d n a hL hs] at h
      exact Or.inl h

theorem create_shape (L : Ledger) (id nm pin : String) (ob : ℚ) (ty : String)
    (d : Date) (n : String) (k : String) (a2 : Account)
    (h : (create_account L id nm pin ob ty d n).2 k = some a2) :
    L k = some a2 ∨ (k = id ∧
      a2 = log_transaction
        { name := nm, pin := pin, balance := ob, ttype := ty, transactions := [],
          failed_attempts := 0, locked := false, daily_limit := 20000,
          withdrawn_today := 0, last_withdraw_date := d,
          interest_rate := if ty = "savings" then (4 / 100 : ℚ) else 0,
          last_interest_date := d }
        "deposit" ob ob n "Opening deposit") := by
  cases hL : L id with
  | some a =>
    rw [create_eq_dup L id nm pin ob ty d n a hL] at h
    exact Or.inl h
  | none =>
    by_cases hpin : pin.length = 4 ∧ pin.data.all Char.isDigit
    · by_cases hty : ty = "savings" ∨ ty = "current"
      · rw [create_eq_ok L id nm pin ob ty d n hL hpin hty] at h
        dsimp only at h
        by_cases hk : k = id
        · subst hk
          rw [update_apply_self] at h
          exact Or.inr ⟨rfl, (Option.some.inj h).symm⟩
        · rw [update_apply_ne _ _ _ _ hk] at h
          exact Or.inl h
      · rw [create_eq_badType L id nm pin ob ty d n hL hpin hty] at h
        exact Or.inl h
    · rw [create_eq_badPin L id nm pin ob ty d n hL hpin] at h
      exact Or.inl h

theorem delete_shape (L : Ledger) (id : String) (confirm : Bool) (k : String)
    (a2 : Account) (h : (delete_account L id confirm).2 k = some a2) :
    L k = some a2 := by
  unfold delete_account at h
  cases hL : L id with
  | none =>
    rw [hL] at h
    exact h
  | some a =>
    rw [hL] at h
    cases confirm with
    | false => exact h
    | true =>
      rw [if_pos rfl] at h
      dsimp only at h
      unfold erase at h
      by_cases hk : k = id
      · rw [if_pos hk] at h
        exact Option.noConfusion h
      · rw [if_neg hk] at h
        exact h

theorem unlock_shape (L : Ledger) (id : String) (k : String) (a2 : Account)
    (h : (unlock_account L id).2 k = some a2) :
    L k = some a2 ∨ (k = id ∧ ∃ a, L id = some a ∧
      a2 = { a with locked := false, failed_attempts := 0 }) := by
  cases hL : L id with
  | none =>
    unfold unlock_account at h
    rw [hL] at h
    exact Or.inl h
  | some a =>
    rw [unlock_eq_ok L id a hL] at h
    dsimp only at h
    by_cases hk : k = id
    · subst hk
      rw [update_apply_self] at h
      exact Or.inr ⟨rfl, a, rfl, (Option.some.inj h).symm⟩
    · rw [update_apply_ne _ _ _ _ hk] at h
      exact Or.inl h

theorem authenticate_eq_notFound (L D : Ledger) (id : String)
    (pins : List String) (h : L id = none) :
    authenticate L D id pins = ⟨AuthRes.notFound, L, D, []⟩ := by
  unfold authenticate
  rw [h]

theorem authenticate_eq_locked (L D : Ledger) (id : String) (pins : List String)
    (a : Account) (h : L id = some a) (hl : a.locked = true) :
    authenticate L D id pins = ⟨AuthRes.alreadyLocked, L, D, []⟩ := by
  unfold authenticate
  simp only [h]
  rw [if_pos hl]

/-- During the login loop an account only ever has its `failed_attempts`
counter rewritten, possibly together with `locked := true`. -/
theorem authLoop_mem_shape (id : String) (D : Ledger) :
    ∀ (fuel : Nat) (pins : List String) (a : Account) (L : Ledger) (k : String)
      (a2 : Account), (authLoop id a L D pins fuel).mem k = some a2 →
    L k = some a2 ∨ (k = id ∧ ∃ m, a2 = { a with failed_attempts := m } ∨
      a2 = { a with failed_attempts := m, locked := true }) := by
  intro fuel
  induction fuel with
  | zero =>
    intro pins a L k a2 h
    rw [authLoop_fuel_zero] at h
    exact Or.inl h
  | succ f ih =>
    intro pins a L k a2 h
    cases pins with
    | nil =>
      rw [authLoop_nil] at h
      exact Or.inl h
    | cons p rest =>
      by_cases hp : p = a.pin
      · rw [authLoop_correct id a L D p rest f hp] at h
        dsimp only at h
        by_cases hk : k = id
        · subst hk
          rw [update_apply_self] at h
          exact Or.inr ⟨rfl, 0, Or.inl (Option.some.inj h).symm⟩
        · rw [update_apply_ne _ _ _ _ hk] at h
          exact Or.inl h
      · by_cases hl3 : 3 ≤ a.failed_attempts + 1
        · rw [authLoop_wrong_lock id a L D p rest f hp hl3] at h
          dsimp only at h
          by_cases hk : k = id
          · subst hk
            rw [update_apply_self] at h
            exact Or.inr ⟨rfl, a.failed_attempts + 1,
              Or.inr (Option.some.inj h).symm⟩
          · rw [update_apply_ne _ _ _ _ hk] at h
            exact Or.inl h
        · rw [authLoop_wrong_cont id a L D p rest f hp hl3] at h
          dsimp only at h
          rcases ih rest { a with failed_attempts := a.failed_attempts + 1 }
              (update L id { a with failed_attempts := a.failed_attempts + 1 })
              k a2 h with h2 | ⟨hk, m, h3⟩
          · by_cases hk : k = id
            · subst hk
              rw [update_apply_self] at h2
              exact Or.inr ⟨rfl, a.failed_attempts + 1,
                Or.inl (Option.some.inj h2).symm⟩
            · rw [update_apply_ne _ _ _ _ hk] at h2
              exact Or.inl h2
          · exact Or.inr ⟨hk, m, h3⟩

/-- `authenticate` only rewrites the target account's `failed_attempts`
and `locked` fields in the in-memory ledger. -/
theorem authenticate_mem_shape (L D : Ledger) (id : String) (pins : List String)
    (k : String) (a2 : Account)
    (h : (authenticate L D id pins).mem k = some a2) :
    L k = some a2 ∨ (k = id ∧ ∃ a m, L id = some a ∧
      (a2 = { a with failed_attempts := m } ∨
        a2 = { a with failed_attempts := m, locked := true })) := by
  cases hL : L id with
  | none =>
    rw [authenticate_eq_notFound L D id pins hL] at h
    exact Or.inl h
  | some a =>
    cases hlock : a.locked with
    | true =>
      rw [authenticate_eq_locked L D id pins a hL hlock] at h
      exact Or.inl h
    | false =>
      rw [authenticate_eq_loop L D id pins a hL hlock] at h
      rcases authLoop_mem_shape id D 3 pins a L k a2 h with h2 | ⟨hk, m, h3⟩
      · exact Or.inl h2
      · exact Or.inr ⟨hk, a, m, rfl, h3⟩

theorem log_transaction_transactions (a : Account) (ty : String) (amt bal : ℚ)
    (n note : String) :
    (log_transaction a ty amt bal n note).transactions =
      pushTxn a.transactions ⟨n, ty, amt, bal, note⟩ := rfl

/-- Ledgers reachable from the default seed by any sequence of customer
and admin operations; `P` constrains the opening balances admitted by
`create_account` (instantiate it with `fun _ => True` for arbitrary
inputs). -/
inductive Reach (P : ℚ → Prop) : Ledger → Prop where
  | seed (d : Date) : Reach P (create_default_accounts d)
  | deposit {L : Ledger} (h : Reach P L) (id : String) (amt : ℚ) (n : String) :
      Reach P (deposit_amount L id amt n).2
  | withdraw {L : Ledger} (h : Reach P L) (id : String) (amt : ℚ) (d : Date)
      (n : String) : Reach P (withdraw_amount L id amt d n).2
  | transfer {L : Ledger} (h : Reach P L) (src tgt : String) (amt : ℚ)
      (d : Date) (n : String) : Reach P (transfer_funds L src tgt amt d n).2
  | interest {L : Ledger} (h : Reach P L) (id : String) (d : Date)
      (n : String) : Reach P (apply_interest_if_savings L id d n).2
  | auth {L : Ledger} (h : Reach P L) (D : Ledger) (id : String)
      (pins : List String) : Reach P (authenticate L D id pins).mem
  | create {L : Ledger} (h : Reach P L) (id nm pin : String) (ob : ℚ)
      (ty : String) (d : Date) (n : String) (hob : P ob) :
      Reach P (create_account L id nm pin ob ty d n).2
  | delete {L : Ledger} (h : Reach P L) (id : String) (confirm : Bool) :
      Reach P (delete_account L id confirm).2
  | unlock {L : Ledger} (h : Reach P L) (id : String) :
      Reach P (unlock_account L id).2

/-- Accounts of the seed ledger. -/
theorem seed_shape (d : Date) (k : String) (a : Account)
    (h : create_default_accounts d k = some a) :
    a = acct1001 d ∨ a = acct1002 d := by
  unfold create_default_accounts at h
  by_cases h1 : k = "1001"
  · rw [if_pos h1] at h
    exact Or.inl (Option.some.inj h).symm
  · rw [if_neg h1] at h
    by_cases h2 : k = "1002"
    · rw [if_pos h2] at h
      exact Or.inr (Option.some.inj h).symm
    · rw [if_neg h2] at h
      exact Option.noConfusion h

/-- C3 (amended): every ledger reachable from the seed by any sequence of
operations in which every `create_account` call is given a non-negative
opening balance has only non-negative balances. -/
theorem C3_balance_nonneg (L : Ledger) (h : Reach (fun q => 0 ≤ q) L) :
    ∀ id a, L id = some a → 0 ≤ a.balance := by
  induction h with
  | seed d =>
    intro k a hk
    rcases seed_shape d k a hk with rfl | rfl
    · norm_num [acct1001]
    · norm_num [acct1002]
  | deposit h id amt n ih =>
    intro k a2 hk
    rcases deposit_shape _ id amt n k a2 hk with h2 | ⟨-, hpos, a, hLa, rfl⟩
    · exact ih k a2 h2
    · rw [log_transaction_balance]
      show 0 ≤ a.balance + amt
      have hb := ih id a hLa
      linarith
  | withdraw h id amt d n ih =>
    intro k a2 hk
    rcases withdraw_shape _ id amt d n k a2 hk with h2 | ⟨-, a, hLa, rfl | ⟨-, hle, rfl⟩⟩
    · exact ih k a2 h2
    · rw [reset_balance]
      exact ih id a hLa
    · rw [log_transaction_balance]
      show 0 ≤ (reset_daily_withdraw_if_new_day a d).balance - amt
      linarith
  | transfer h src tgt amt d n ih =>
    intro k a2 hk
    rcases transfer_shape _ src tgt amt d n k a2 hk with
      h2 | ⟨-, s, hLs, rfl | ⟨-, hle, rfl⟩⟩ | ⟨-, hpos, t, hLt, rfl⟩
    · exact ih k a2 h2
    · rw [reset_balance]
      exact ih src s hLs
    · rw [log_transaction_balance]
      show 0 ≤ (reset_daily_withdraw_if_new_day s d).balance - amt
      linarith
    · rw [log_transaction_balance]
      show 0 ≤ t.balance + amt
      have hb := ih tgt t hLt
      linarith
  | interest h id d n ih =>
    intro k a2 hk
    rcases interest_shape _ id d n k a2 hk with h2 | ⟨-, a, hLa, hpos, rfl⟩
    · exact ih k a2 h2
    · rw [log_transaction_balance]
      show 0 ≤ a.balance + interestAmt a d
      have hb := ih id a hLa
      linarith
  | auth h D id pins ih =>
    intro k a2 hk
    rcases authenticate_mem_shape _ D id pins k a2 hk with h2 | ⟨-, a, m, hLa, rfl | rfl⟩
    · exact ih k a2 h2
    · show 0 ≤ a.balance
      exact ih id a hLa
    · show 0 ≤ a.balance
      exact ih id a hLa
  | create h id nm pin ob ty d n hob ih =>
    intro k a2 hk
    rcases create_shape _ id nm pin ob ty d n k a2 hk with h2 | ⟨-, rfl⟩
    · exact ih k a2 h2
    · rw [log_transaction_balance]
      exact hob
  | delete h id confirm ih =>
    intro k a2 hk
    exact ih k a2 (delete_shape _ id confirm k a2 hk)
  | unlock h id ih =>
    intro k a2 hk
    rcases unlock_shape _ id k a2 hk with h2 | ⟨-, a, hLa, rfl⟩
    · exact ih k a2 h2
    · show 0 ≤ a.balance
      exact ih id a hLa

/-- Counterexample to C3 as stated: `create_account` never validates the
opening balance, so an admin create with opening balance -1 yields a
reachable ledger holding a negative balance. -/
theorem C3_counterexample :
    Reach (fun _ => True)
      ((create_account (create_default_accounts ⟨2024, 1, 15⟩) "1003" "Eve" "4444"
        (-1) "savings" ⟨2024, 1, 15⟩ "ts").2) ∧
    ∃ a, (create_account (create_default_accounts ⟨2024, 1, 15⟩) "1003" "Eve" "4444"
        (-1) "savings" ⟨2024, 1, 15⟩ "ts").2 "1003" = some a ∧ a.balance < 0 := by
  constructor
  · exact Reach.create (Reach.seed ⟨2024, 1, 15⟩) "1003" "Eve" "4444" (-1)
      "savings" ⟨2024, 1, 15⟩ "ts" trivial
  · rw [create_eq_ok (create_default_accounts ⟨2024, 1, 15⟩) "1003" "Eve" "4444"
      (-1) "savings" ⟨2024, 1, 15⟩ "ts" rfl (by decide) (Or.inl rfl)]
    dsimp only
    refine ⟨_, update_apply_self _ _ _, ?_⟩
    rw [log_transaction_balance]
    norm_num

/-- Witness for C3 (amended) at the seed ledger: account 1001's balance is
non-negative. -/
theorem C3_balance_nonneg_witness :
    ∃ a, create_default_accounts ⟨2024, 1, 15⟩ "1001" = some a ∧ 0 ≤ a.balance :=
  ⟨acct1001 ⟨2024, 1, 15⟩, rfl,
    C3_balance_nonneg _ (Reach.seed ⟨2024, 1, 15⟩) "1001" _ rfl⟩

/-- The 50-entry history bound holds on every reachable ledger, whatever
opening balances admin creates were given. -/
theorem Reach_txn_bound (P : ℚ → Prop) (L : Ledger) (h : Reach P L) :
    ∀ id a, L id = some a → a.transactions.length ≤ 50 := by
  induction h with
  | seed d =>
    intro k a hk
    rcases seed_shape d k a hk with rfl | rfl <;> simp [acct1001, acct1002]
  | deposit h id amt n ih =>
    intro k a2 hk
    rcases deposit_shape _ id amt n k a2 hk with h2 | ⟨-, -, a, hLa, rfl⟩
    · exact ih k a2 h2
    · rw [log_transaction_transactions]
      exact pushTxn_length_le _ _
  | withdraw h id amt d n ih =>
    intro k a2 hk
    rcases withdraw_shape _ id amt d n k a2 hk with h2 | ⟨-, a, hLa, rfl | ⟨-, -, rfl⟩⟩
    · exact ih k a2 h2
    · rw [reset_transactions]
      exact ih id a hLa
    · rw [log_transaction_transactions]
      exact pushTxn_length_le _ _
  | transfer h src tgt amt d n ih =>
    intro k a2 hk
    rcases transfer_shape _ src tgt amt d n k a2 hk with
      h2 | ⟨-, s, hLs, rfl | ⟨-, -, rfl⟩⟩ | ⟨-, -, t, hLt, rfl⟩
    · exact ih k a2 h2
    · rw [reset_transactions]
      exact ih src s hLs
    · rw [log_transaction_transactions]
      exact pushTxn_length_le _ _
    · rw [log_transaction_transactions]
      exact pushTxn_length_le _ _
  | interest h id d n ih =>
    intro k a2 hk
    rcases interest_shape _ id d n k a2 hk with h2 | ⟨-, a, hLa, -, rfl⟩
    · exact ih k a2 h2
    · rw [log_transaction_transactions]
      exact pushTxn_length_le _ _
  | auth h D id pins ih =>
    intro k a2 hk
    rcases authenticate_mem_shape _ D id pins k a2 hk with h2 | ⟨-, a, m, hLa, rfl | rfl⟩
    · exact ih k a2 h2
    · show a.transactions.length ≤ 50
      exact ih id a hLa
    · show a.transactions.length ≤ 50
      exact ih id a hLa
  | create h id nm pin ob ty d n hob ih =>
    intro k a2 hk
    rcases create_shape _ id nm pin ob ty d n k a2 hk with h2 | ⟨-, rfl⟩
    · exact ih k a2 h2
    · rw [log_transaction_transactions]
      exact pushTxn_length_le _ _
  | delete h id confirm ih =>
    intro k a2 hk
    exact ih k a2 (delete_shape _ id confirm k a2 hk)
  | unlock h id ih =>
    intro k a2 hk
    rcases unlock_shape _ id k a2 hk with h2 | ⟨-, a, hLa, rfl⟩
    · exact ih k a2 h2
    · show a.transactions.length ≤ 50
      exact ih id a hLa

/-- C6: on every reachable ledger each transaction history holds at most
50 records; and folding the log operation over any stream of records from
an empty history keeps exactly the most recent 50, in order (newest last,
oldest of the retained records first). -/
theorem C6_history_bound :
    (∀ L, Reach (fun _ => True) L → ∀ id a, L id = some a →
      a.transactions.length ≤ 50)
    ∧ (∀ ts : List Txn, List.foldl pushTxn [] ts = ts.drop (ts.length - 50)) :=
  ⟨fun L h => Reach_txn_bound _ L h, pushTxn_foldl⟩

/-- Witness for C6: the seed account satisfies the bound, and logging one
record into an empty history keeps exactly that record. -/
theorem C6_history_bound_witness :
    (∃ a, create_default_accounts ⟨2024, 1, 15⟩ "1001" = some a ∧
      a.transactions.length ≤ 50) ∧
    List.foldl pushTxn [] [⟨"t", "deposit", 5, 5, "x"⟩] =
      [⟨"t", "deposit", 5, 5, "x"⟩] := by
  constructor
  · exact ⟨acct1001 ⟨2024, 1, 15⟩, rfl,
      C6_history_bound.1 _ (Reach.seed ⟨2024, 1, 15⟩) "1001" _ rfl⟩
  · have h := C6_history_bound.2 [⟨"t", "deposit", 5, 5, "x"⟩]
    simpa using h

/-- Counterexample to C8 as stated: `create_account` logs the opening
balance as a `deposit` transaction without checking it is positive, so an
admin create with opening balance 0 yields a reachable ledger containing
a transaction of amount 0. -/
theorem C8_counterexample :
    Reach (fun _ => True)
      ((create_account (create_default_accounts ⟨2024, 1, 15⟩) "1004" "Zed" "5555"
        0 "current" ⟨2024, 1, 15⟩ "ts").2) ∧
    ∃ a t, (create_account (create_default_accounts ⟨2024, 1, 15⟩) "1004" "Zed"
        "5555" 0 "current" ⟨2024, 1, 15⟩ "ts").2 "1004" = some a ∧
      t ∈ a.transactions ∧ ¬ 0 < t.amount := by
  constructor
  · exact Reach.create (Reach.seed ⟨2024, 1, 15⟩) "1004" "Zed" "5555" 0
      "current" ⟨2024, 1, 15⟩ "ts" trivial
  · rw [create_eq_ok (create_default_accounts ⟨2024, 1, 15⟩) "1004" "Zed" "5555"
      0 "current" ⟨2024, 1, 15⟩ "ts" rfl (by decide) (Or.inr rfl)]
    dsimp only
    refine ⟨_, ⟨"ts", "deposit", 0, 0, "Opening deposit"⟩,
      update_apply_self _ _ _, ?_, by norm_num⟩
    rw [log_transaction_transactions, pushTxn_eq]
    simp

/-- C8 (amended): on every ledger reachable with strictly positive opening
balances for admin creates, every stored transaction has a strictly
positive amount. -/
theorem C8_txn_amount_pos (L : Ledger) (h : Reach (fun q => 0 < q) L) :
    ∀ id a, L id = some a → ∀ t ∈ a.transactions, 0 < t.amount := by
  induction h with
  | seed d =>
    intro k a hk
    rcases seed_shape d k a hk with rfl | rfl <;> simp [acct1001, acct1002]
  | deposit h id amt n ih =>
    intro k a2 hk t ht
    rcases deposit_shape _ id amt n k a2 hk with h2 | ⟨-, hpos, a, hLa, rfl⟩
    · exact ih k a2 h2 t ht
    · rw [log_transaction_transactions] at ht
      rcases pushTxn_mem _ _ _ ht with hold | rfl
      · exact ih id a hLa t hold
      · exact hpos
  | withdraw h id amt d n ih =>
    intro k a2 hk t ht
    rcases withdraw_shape _ id amt d n k a2 hk with h2 | ⟨-, a, hLa, rfl | ⟨hpos, -, rfl⟩⟩
    · exact ih k a2 h2 t ht
    · have ht2 : t ∈ (reset_daily_withdraw_if_new_day a d).transactions := ht
      rw [reset_transactions] at ht2
      exact ih id a hLa t ht2
    · rw [log_transaction_transactions] at ht
      rcases pushTxn_mem _ _ _ ht with hold | rfl
      · have ht2 : t ∈ (reset_daily_withdraw_if_new_day a d).transactions := hold
        rw [reset_transactions] at ht2
        exact ih id a hLa t ht2
      · exact hpos
  | transfer h src tgt amt d n ih =>
    intro k a2 hk t ht
    rcases transfer_shape _ src tgt amt d n k a2 hk with
      h2 | ⟨-, s, hLs, rfl | ⟨hpos, -, rfl⟩⟩ | ⟨-, hpos, u, hLt, rfl⟩
    · exact ih k a2 h2 t ht
    · have ht2 : t ∈ (reset_daily_withdraw_if_new_day s d).transactions := ht
      rw [reset_transactions] at ht2
      exact ih src s hLs t ht2
    · rw [log_transaction_transactions] at ht
      rcases pushTxn_mem _ _ _ ht with hold | rfl
      · have ht2 : t ∈ (reset_daily_withdraw_if_new_day s d).transactions := hold
        rw [reset_transactions] at ht2
        exact ih src s hLs t ht2
      · exact hpos
    · rw [log_transaction_transactions] at ht
      rcases pushTxn_mem _ _ _ ht with hold | rfl
      · exact ih tgt u hLt t hold
      · exact hpos
  | interest h id d n ih =>
    intro k a2 hk t ht
    rcases interest_shape _ id d n k a2 hk with h2 | ⟨-, a, hLa, hpos, rfl⟩
    · exact ih k a2 h2 t ht
    · rw [log_transaction_transactions] at ht
      rcases pushTxn_mem _ _ _ ht with hold | rfl
      · exact ih id a hLa t hold
      · exact hpos
  | auth h D id pins ih =>
    intro k a2 hk t ht
    rcases authenticate_mem_shape _ D id pins k a2 hk with h2 | ⟨-, a, m, hLa, rfl | rfl⟩
    · exact ih k a2 h2 t ht
    · exact ih id a hLa t ht
    · exact ih id a hLa t ht
  | create h id nm pin ob ty d n hob ih =>
    intro k a2 hk t ht
    rcases create_shape _ id nm pin ob ty d n k a2 hk with h2 | ⟨-, rfl⟩
    · exact ih k a2 h2 t ht
    · rw [log_transaction_transactions] at ht
      rcases pushTxn_mem _ _ _ ht with hold | rfl
      · have ht2 : t ∈ ([] : List Txn) := hold
        cases ht2
      · exact hob
  | delete h id confirm ih =>
    intro k a2 hk t ht
    exact ih k a2 (delete_shape _ id confirm k a2 hk) t ht
  | unlock h id ih =>
    intro k a2 hk t ht
    rcases unlock_shape _ id k a2 hk with h2 | ⟨-, a, hLa, rfl⟩
    · exact ih k a2 h2 t ht
    · exact ih id a hLa t ht

/-- Witness for C8 (amended) at the seed ledger. -/
theorem C8_txn_amount_pos_witness :
    ∃ a, create_default_accounts ⟨2024, 1, 15⟩ "1001" = some a ∧
      ∀ t ∈ a.transactions, 0 < t.amount :=
  ⟨acct1001 ⟨2024, 1, 15⟩, rfl,
    C8_txn_amount_pos _ (Reach.seed ⟨2024, 1, 15⟩) "1001" _ rfl⟩

end Bank
